import Mathlib

/-!
Verification of the email-os zone-classification pipeline.

Shallow embedding of the classification / seed / thread-intelligence /
state-machine / event-bus core of the repository:

  * `src/email-os/src/agents/classify.ts`  — ClassifyAgent (signal detection,
    scoring, hybrid keyword/LLM classification, batch classification) and the
    concatenated SeedAgent copy (checkEscalation, getActive);
  * `src/email-os/src/agents/seed.js`      — SeedAgent (checkEscalation,
    getActive: DB branch and in-memory branch);
  * `src/email-os/src/agents/insight.ts` / `insight.js` — InsightAgent
    (updateVelocity, generateInsight);
  * the orchestrator state machine (TRANSITIONS, StateMachine.transition);
  * `src/email-os/src/bus.js`              — InsightBus.publish.

Modelling conventions, used throughout:

  * JS numbers that only ever hold integers (scores, weights, millisecond
    timestamps) are `Int`; values produced by division (confidence,
    velocity, half-life) are `ℚ`.  All numbers in play are far below 2^53,
    where JS float arithmetic on integers is exact, so `Int`/`ℚ` agree with
    the source except where noted in a comment at the definition.
  * `Map.get`/`Map.set` are modelled by a first-match association list:
    `mapSet` prepends the new binding and `mapGetD` reads the newest one,
    which is observationally the same as a JS `Map`.
  * `String.prototype.includes` / `toLowerCase` / `slice` act on UTF-16
    units; our model acts on characters.  Every keyword in the agent's data
    is ASCII or BMP CJK (no surrogate pairs, no non-ASCII letters with
    case), so the two semantics agree on the data of this program.
  * I/O side effects (writing to the DB / JSON files, console logging) are
    dropped; bus publications are kept where a claim mentions them, as an
    explicit list of published events returned by the operation.
-/

/-- Decides whether the character list `p` stands at the head of `l`
(used to build the substring test below). -/
def leadsWith : List Char → List Char → Bool
  | [], _ => true
  | _ :: _, [] => false
  | p :: ps, c :: cs => p == c && leadsWith ps cs

/-- Decides whether `pat` occurs contiguously inside `hay`: the model of
`hay.includes(pat)` on JS strings. -/
def hasSubstr : List Char → List Char → Bool
  | [], pat => pat.isEmpty
  | hay@(_ :: t), pat => leadsWith pat hay || hasSubstr t pat

/-- Model of `hay.includes(pat)` for JS strings. -/
def jsIncludes (hay pat : String) : Bool :=
  hasSubstr hay.toList pat.toList

/-- Lowercase one character: JS `toLowerCase` restricted to ASCII letters,
which is all the agent's keyword data exercises (CJK has no case). -/
def lowerChar (c : Char) : Char :=
  if c.toNat ≥ 65 && c.toNat ≤ 90 then Char.ofNat (c.toNat + 32) else c

/-- Model of `s.toLowerCase()` (see `lowerChar`). -/
def jsToLower (s : String) : String :=
  String.mk (s.toList.map lowerChar)

/-- Model of `s.slice(0, n)`: the first `n` characters. -/
def jsSlice (s : String) (n : Nat) : String :=
  String.mk (s.toList.take n)

/-- Split a character list into the fields separated by `sep`, as JS
`String.prototype.split` does (an empty input gives one empty field). -/
def splitFields (sep : Char) : List Char → List (List Char)
  | [] => [[]]
  | c :: cs =>
    match splitFields sep cs with
    | [] => [[]]
    | f :: fs => if c == sep then [] :: f :: fs else (c :: f) :: fs

/-- The part of an email address after the first at-sign, or the empty
string: model of the sender-domain extraction of classify.ts line 318
(`split` at the at-sign, second field or empty). -/
def domainOf (addr : String) : String :=
  match splitFields (Char.ofNat 64) addr.toList with
  | _ :: d :: _ => String.mk d
  | _ => ""

/-- Model of `m.get(k) || 0` on a JS `Map` represented as a first-match
association list. -/
def mapGetD (m : List (String × Nat)) (k : String) : Nat :=
  (m.lookup k).getD 0

/-- Model of `m.set(k, v)` on a JS `Map`: prepend, so `mapGetD` sees the
newest binding. -/
def mapSet (m : List (String × Nat)) (k : String) (v : Nat) : List (String × Nat) :=
  (k, v) :: m

/-- Urgency zone of an email (`Zone` in types.ts). -/
inductive Zone where
  | red
  | yellow
  | green
deriving DecidableEq, Repr

/-- How a classification was produced (`ClassifyMethod` in types.ts). -/
inductive ClassifyMethod where
  | keyword
  | llm
  | fallback
deriving DecidableEq, Repr

/-- One detected signal (the duck-typed `ClassifySignal` objects of
classify.ts, closed over the fields the agent ever writes; absent JS fields
are the defaults). -/
structure Signal where
  type : String
  level : String := ""
  keyword : String := ""
  count : Int := 0
  zone : Option Zone := none
  rule : String := ""
  email : String := ""
  source : String := ""
  domain : String := ""
deriving DecidableEq, Repr

/-- The `SignalArray` of classify.ts: a signal list that may carry the
`_forcedZone` marker a matching VIP precision rule smuggles onto it. -/
structure SignalArray where
  forcedZone : Option Zone := none
  signals : List Signal
deriving DecidableEq, Repr

/-- A normalized email as the classifier reads it (`Email` in types.ts);
`fromEmail` is `email.from?.email || ""`, `inReplyTo` the truthiness of the
in-reply-to reference and `date` the received timestamp in ms since epoch. -/
structure Email where
  id : String := ""
  threadId : String := ""
  fromEmail : String := ""
  subject : String := ""
  snippet : String := ""
  isImportant : Bool := false
  isStarred : Bool := false
  inReplyTo : Bool := false
  date : Int := 0
deriving DecidableEq, Repr

/-- URGENCY_SIGNALS.high (classify.ts lines 28-32). -/
def URGENCY_HIGH : List String :=
  ["urgent", "asap", "immediately", "deadline", "critical", "emergency",
   "time-sensitive", "action required",
   "緊急", "立即", "逾期", "限期", "安全性快訊"]

/-- URGENCY_SIGNALS.medium (classify.ts lines 33-38). -/
def URGENCY_MEDIUM : List String :=
  ["follow up", "reminder", "update", "question", "meeting", "schedule",
   "review", "feedback",
   "提醒", "更新", "會議", "排程", "回覆", "確認",
   "申請", "審核", "變更"]

/-- URGENCY_SIGNALS.low (classify.ts line 39). -/
def URGENCY_LOW : List String :=
  ["notification", "automated", "通知"]

/-- ACTION_REQUIRED keyword list (classify.ts lines 42-48). -/
def ACTION_REQUIRED : List String :=
  ["簽核", "需要簽核", "action required", "approve", "approval needed",
   "屆期", "expire", "expir",
   "安全性快訊", "security alert",
   "rfq", "request for quot", "quotation", "inquiry", "enquiry",
   "報價", "詢價", "見積", "請報價", "quote request"]

/-- NEWSLETTER_PATTERNS (classify.ts lines 51-59). -/
def NEWSLETTER_PATTERNS : List String :=
  ["newsletter", "digest", "unsubscribe", "no-reply", "noreply",
   "promotion", "edm", "subscribe",
   "電子報", "快訊", "促銷", "優惠", "免費", "講座", "研討會",
   "活動", "活動推薦", "限時", "折扣", "獨家", "立即搶購",
   "推薦活動", "熱門推薦",
   "應徵履歷", "調查表", "問卷", "教育訓練需求",
   "補助申請", "survey"]

/-- SEASONAL_GREETING_PATTERNS (classify.ts lines 61-66). -/
def SEASONAL_GREETING_PATTERNS : List String :=
  ["新年快樂", "春節", "祝福", "恭喜發財", "新春", "開工大吉",
   "馬到成功", "馬年", "大吉", "迎春", "賀年", "佳節",
   "happy new year", "season\x27s greetings", "merry christmas",
   "感恩", "耶誕"]

/-- AUTO_NOTIFICATION_PATTERNS (classify.ts lines 68-76). -/
def AUTO_NOTIFICATION_PATTERNS : List String :=
  ["交易結果通知", "結果通知", "成功通知", "自動發送", "請勿直接回信",
   "系統自動", "do not reply", "automated message",
   "電子發票通知", "對帳單", "月報", "成效", "績效報告",
   "monthly report", "your monthly", "performance",
   "驗證碼", "verification code", "otp",
   "費用通知", "繳款單", "帳單",
   "新訊", "重要通知", "水費", "繳費"]

/-- MARKETING_PATTERNS (classify.ts lines 78-83). -/
def MARKETING_PATTERNS : List String :=
  ["拓展事業", "獨特之處", "升級", "全新", "新品", "方案",
   "了解更多", "learn more", "discover", "introducing",
   "快速編輯", "井然有序", "輕鬆辦到",
   "逆襲", "狂飆", "業績", "免費工具"]

/-- KNOWN_NEWSLETTER_DOMAINS (classify.ts lines 85-88). -/
def KNOWN_NEWSLETTER_DOMAINS : List String :=
  ["accuvally.com", "mail.adobe.com", "edmapac.trendmicro.com",
   "service.alibaba.com", "mymkc.com", "edm.taitra.org.tw"]

/-- A VIP precision rule (classify.ts lines 91-95). -/
structure VipRule where
  domainContains : String
  subjectContains : Option String := none
  zone : Option Zone
deriving DecidableEq, Repr

/-- VIP_PRECISION_RULES (classify.ts lines 97-128). -/
def VIP_PRECISION_RULES : List VipRule :=
  [{ domainContains := "gov.tw", zone := none },
   { domainContains := "gov", zone := none },
   { domainContains := "tcb-bank.com.tw", subjectContains := some "待放行", zone := some .green },
   { domainContains := "tcb-bank.com.tw", subjectContains := some "交易結果", zone := some .green },
   { domainContains := "tcb-bank.com.tw", subjectContains := some "對帳單", zone := some .yellow },
   { domainContains := "tcb-bank.com.tw", subjectContains := some "EDI", zone := some .green },
   { domainContains := "tcb-bank.com.tw", subjectContains := some "財經", zone := some .green },
   { domainContains := "tcb-bank.com.tw", subjectContains := some "經濟", zone := some .green },
   { domainContains := "tcb-bank.com.tw", subjectContains := some "權益", zone := some .green },
   { domainContains := "google.com", subjectContains := some "安全性", zone := some .red },
   { domainContains := "google.com", subjectContains := some "security", zone := some .red },
   { domainContains := "google.com", subjectContains := some "Action Advised", zone := some .yellow },
   { domainContains := "google.com", subjectContains := some "Action Required", zone := some .yellow },
   { domainContains := "google.com", subjectContains := some "成效", zone := some .green },
   { domainContains := "google.com", subjectContains := some "拓展", zone := some .green },
   { domainContains := "google.com", subjectContains := some "獨特", zone := some .green },
   { domainContains := "google.com", subjectContains := some "welcome", zone := some .green },
   { domainContains := "femascloud.com", subjectContains := some "簽核", zone := some .red },
   { domainContains := "femascloud.com", subjectContains := some "稽催", zone := some .red },
   { domainContains := "firstbank.com", subjectContains := some "對帳單", zone := some .yellow },
   { domainContains := "cht.com.tw", subjectContains := some "發票", zone := some .yellow },
   { domainContains := "cht.com.tw", subjectContains := some "費用", zone := some .yellow },
   { domainContains := "1111.com.tw", zone := none },
   { domainContains := "ms.104.com.tw", zone := some .green },
   { domainContains := "104.com.tw", subjectContains := some "驗證碼", zone := some .green },
   { domainContains := "water.gov.tw", zone := some .yellow },
   { domainContains := "nhi.gov.tw", subjectContains := some "新訊", zone := some .yellow },
   { domainContains := "nhi.gov.tw", subjectContains := some "調整通知", zone := some .yellow },
   { domainContains := "google.com", subjectContains := some "提醒", zone := some .yellow },
   { domainContains := "google.com", subjectContains := some "Merchant", zone := some .yellow }]

/-- VIP_PATTERNS (classify.ts line 130). -/
def VIP_PATTERNS : List String := ["gov", "gov.tw"]

/-- The mutable per-agent state of ClassifyAgent that signal detection reads
and writes: the sender and subject frequency counters, and the method
statistics (`negativeStats` and the in-memory classification log carry no
claim and are omitted). -/
structure ClassifyState where
  senderHistory : List (String × Nat) := []
  subjectHistory : List (String × Nat) := []
  statsKeyword : Nat := 0
  statsLlm : Nat := 0
  statsFallback : Nat := 0
deriving DecidableEq, Repr

/-- The VIP precision-rule loop of detectSignals (classify.ts lines 322-335):
first rule whose domain substring matches wins; with a matching subject filter
it sets the override and stops, without a subject filter it emits a generic
vip-sender signal and stops; a rule whose domain matches but whose subject
filter does not is skipped and scanning continues. -/
def vipScan (senderEmail senderDomain subject : String) :
    List VipRule → List Signal × Option Zone
  | [] => ([], none)
  | r :: rs =>
    if jsIncludes senderDomain r.domainContains then
      match r.subjectContains with
      | some sub =>
        if jsIncludes subject (jsToLower sub) then
          ([{ type := "vip-precision", zone := r.zone,
              rule := r.domainContains ++ "+" ++ sub }], r.zone)
        else vipScan senderEmail senderDomain subject rs
      | none => ([{ type := "vip-sender", email := senderEmail }], none)
    else vipScan senderEmail senderDomain subject rs

/-- First pattern of `pats` found in `text` (each lowercased), as the
`for … if text.includes(p.toLowerCase()) … break` loops of detectSignals. -/
def firstMatch (text : String) (pats : List String) : Option String :=
  pats.find? (fun p => jsIncludes text (jsToLower p))

/-- The duplicate-detection key of detectSignals (classify.ts line 384):
sender domain plus the first 50 characters of the lowercased subject. -/
def dedupKey (email : Email) : String :=
  domainOf email.fromEmail ++ "::" ++ jsSlice (jsToLower email.subject) 50

/-- The signal list detectSignals builds when no VIP precision rule forced a
zone (classify.ts lines 342-424), as a function of the two counter values the
frequency maps held before the call (`dupCount`, `senderCount`); the segments
appear in the push order of the source. -/
def unforcedSignals (vipSenders : List String) (email : Email)
    (dupCount senderCount : Nat) : List Signal :=
  let text := jsToLower (email.subject ++ " " ++ email.snippet)
  let senderEmail := email.fromEmail
  let senderDomain := domainOf senderEmail
  let vipSigs := (vipScan senderEmail senderDomain (jsToLower email.subject) VIP_PRECISION_RULES).1
  let newsletterSigs :=
    if KNOWN_NEWSLETTER_DOMAINS.any (fun d => jsIncludes senderDomain d) then
      [{ type := "newsletter", source := "domain", domain := senderDomain : Signal }]
    else
      match firstMatch text NEWSLETTER_PATTERNS with
      | some p => [{ type := "newsletter", source := "keyword", keyword := p : Signal }]
      | none => []
  let seasonalSigs :=
    match firstMatch text SEASONAL_GREETING_PATTERNS with
    | some p => [{ type := "seasonal-greeting", keyword := p : Signal }]
    | none => []
  let autoSigs :=
    match firstMatch text AUTO_NOTIFICATION_PATTERNS with
    | some p => [{ type := "auto-notification", keyword := p : Signal }]
    | none => []
  let marketingSigs :=
    match firstMatch text MARKETING_PATTERNS with
    | some p => [{ type := "marketing", keyword := p : Signal }]
    | none => []
  let dupSigs :=
    if dupCount > 0 then [{ type := "duplicate", count := (dupCount : Int) + 1 : Signal }]
    else []
  let actionSigs :=
    match firstMatch text ACTION_REQUIRED with
    | some p => [{ type := "action-required", keyword := p : Signal }]
    | none => []
  let urgencySigs :=
    (URGENCY_HIGH.filter (fun k => jsIncludes text (jsToLower k))).map
      (fun k => { type := "urgency", level := "high", keyword := k : Signal }) ++
    (URGENCY_MEDIUM.filter (fun k => jsIncludes text (jsToLower k))).map
      (fun k => { type := "urgency", level := "medium", keyword := k : Signal }) ++
    (URGENCY_LOW.filter (fun k => jsIncludes text (jsToLower k))).map
      (fun k => { type := "urgency", level := "low", keyword := k : Signal })
  let legacyVipSigs :=
    if vipSenders.contains senderEmail ||
       VIP_PATTERNS.any (fun p => jsIncludes senderDomain p) then
      [{ type := "vip-sender", email := senderEmail : Signal }]
    else []
  let flagSigs :=
    (if email.isImportant then [{ type := "gmail-important" : Signal }] else []) ++
    (if email.isStarred then [{ type := "gmail-starred" : Signal }] else []) ++
    (if email.inReplyTo then [{ type := "thread-reply" : Signal }] else [])
  let freqSigs :=
    if senderCount > 5 then [{ type := "frequent-sender", count := (senderCount : Int) : Signal }]
    else []
  vipSigs ++ newsletterSigs ++ seasonalSigs ++ autoSigs ++ marketingSigs ++
    dupSigs ++ actionSigs ++ urgencySigs ++ legacyVipSigs ++ flagSigs ++ freqSigs

/-- ClassifyAgent.detectSignals (classify.ts lines 314-425): the ordered
signal list for one email plus the updated frequency state.  A VIP precision
rule with a matching subject filter forces the zone, stops all further
detection and leaves the frequency state untouched; otherwise the duplicate
and sender counters are read and bumped and the full signal list is built by
`unforcedSignals` from the counter values just read. -/
def detectSignals (vipSenders : List String) (st : ClassifyState) (email : Email) :
    SignalArray × ClassifyState :=
  let senderEmail := email.fromEmail
  let senderDomain := domainOf senderEmail
  let subject := jsToLower email.subject
  let scan := vipScan senderEmail senderDomain subject VIP_PRECISION_RULES
  match scan.2 with
  | some z => ({ forcedZone := some z, signals := scan.1 }, st)
  | none =>
    let dupCount := mapGetD st.subjectHistory (dedupKey email)
    let senderCount := mapGetD st.senderHistory senderEmail
    ({ forcedZone := none,
       signals := unforcedSignals vipSenders email dupCount senderCount },
     { st with subjectHistory := mapSet st.subjectHistory (dedupKey email) (dupCount + 1),
               senderHistory := mapSet st.senderHistory senderEmail (senderCount + 1) })

/-- The canonical score of a zone: ClassifyAgent.zoneToScore (classify.ts
lines 464-466; the defensive `|| 50` of the source is unreachable on the
closed zone type). -/
def zoneToScore : Zone → Int
  | .red => 85
  | .yellow => 60
  | .green => 30

/-- ClassifyAgent.scoreToZone (classify.ts lines 458-462). -/
def scoreToZone (score : Int) : Zone :=
  if score ≥ 75 then .red
  else if score ≥ 45 then .yellow
  else .green

/-- One iteration of the `for (const signal of signals)` switch of
calculateScore (classify.ts lines 433-450): the accumulator is
(running score, hasNegative). -/
def scoreStep (acc : Int × Bool) (s : Signal) : Int × Bool :=
  if s.type == "action-required" then (acc.1 + 40, acc.2)
  else if s.type == "urgency" then
    (acc.1 + (if s.level == "high" then 25 else if s.level == "medium" then 10 else -5), acc.2)
  else if s.type == "vip-sender" then (acc.1 + 15, acc.2)
  else if s.type == "gmail-important" then (acc.1 + 5, acc.2)
  else if s.type == "gmail-starred" then (acc.1 + 15, acc.2)
  else if s.type == "thread-reply" then (acc.1 + 10, acc.2)
  else if s.type == "frequent-sender" then (acc.1 + min s.count 5, acc.2)
  else if s.type == "newsletter" then (acc.1 - 30, true)
  else if s.type == "seasonal-greeting" then (acc.1 - 40, true)
  else if s.type == "auto-notification" then (acc.1 - 25, true)
  else if s.type == "marketing" then (acc.1 - 20, true)
  else if s.type == "duplicate" then
    (acc.1 - (if s.count ≥ 3 then 35 else 20), true)
  else acc

/-- The signal loop of calculateScore, started at score 50 and no negative
signal seen: the raw score before the override rule and the clamp to
the 0 to 100 range. -/
def scoreFold (signals : List Signal) : Int × Bool :=
  signals.foldl scoreStep (50, false)

/-- ClassifyAgent.calculateScore (classify.ts lines 427-456): forced zone
short-circuits to the zone's canonical score; otherwise fold the weights,
clamp to at least 75 when a negative and an action-required signal co-occur,
and clamp into the 0 to 100 range. -/
def calculateScore (sa : SignalArray) : Int :=
  match sa.forcedZone with
  | some z => zoneToScore z
  | none =>
    let fold := scoreFold sa.signals
    let hasAction := sa.signals.any (fun s => s.type == "action-required")
    let score := if fold.2 && hasAction then max fold.1 75 else fold.1
    max 0 (min 100 score)

/-- ClassifyAgent.calculateConfidence (classify.ts lines 468-472), over ℚ.
In JS floats `0.5 + 2 * 0.15` is the double just below 4/5, so an email with
exactly two signals sits below the 0.8 hybrid threshold there while the exact
rational sits on it; no claim of this development turns on the two-signal
boundary, and every witness below has 0, 1 or at least 3 signals, where the
two semantics agree. -/
def calculateConfidence (signals : List Signal) : ℚ :=
  if signals.length = 0 then 0.3
  else if signals.length ≥ 3 then 0.9
  else 0.5 + (signals.length : ℚ) * 0.15

/-- The human-readable reasoning string: ClassifyAgent.generateReasoning
(classify.ts lines 474-478). -/
def zoneName : Zone → String
  | .red => "red"
  | .yellow => "yellow"
  | .green => "green"

/-- ClassifyAgent.generateReasoning (classify.ts lines 474-478). -/
def generateReasoning (signals : List Signal) (zone : Zone) : String :=
  if signals.length = 0 then "Zone " ++ zoneName zone ++ ": no strong signals detected"
  else
    "Zone " ++ zoneName zone ++ ": detected " ++ toString signals.length ++
    " signal(s) — " ++ String.intercalate ", " ((signals.take 3).map (fun s => s.type))

/-- A Classification record (types.ts / classify.ts `_makeResult`); the
wall-clock timestamp carries no claim and is omitted.  `threadId` is optional
because batchClassify's per-email failure default omits it. -/
structure Classification where
  emailId : String
  threadId : Option String := none
  zone : Zone
  score : Int
  confidence : ℚ
  signals : List Signal
  reasoning : String
  method : ClassifyMethod
deriving DecidableEq, Repr

/-- ClassifyAgent._makeResult (classify.ts lines 291-312) without its bus /
DB / in-memory-log side effects: the Classification record it builds. -/
def makeResult (email : Email) (zone : Zone) (score : Int) (confidence : ℚ)
    (signals : List Signal) (method : ClassifyMethod) (reasoning : Option String) :
    Classification :=
  { emailId := email.id, threadId := some email.threadId, zone, score, confidence,
    signals, reasoning := reasoning.getD (generateReasoning signals zone), method }

/-- The outcome of the LLM collaborator for one email, observed at the
classifyWithLLM boundary: `ok` carries what classifyWithLLM returns after it
has validated the zone and clamped the confidence (classify.ts lines
245-255); `err` is a thrown chat call, unparseable JSON or an out-of-enum
zone, all of which classifyWithLLM raises as exceptions; `off` is the
`llmEnabled = false` / no-provider mode. -/
inductive LLMOutcome where
  | ok (zone : Zone) (confidence : ℚ) (reasoning : String) (signals : List String)
  | err
  | off
deriving DecidableEq, Repr

/-- ClassifyAgent.classify (classify.ts lines 195-227), with the LLM
collaborator passed as an explicit outcome: high keyword confidence returns
the keyword result; otherwise the LLM result is used when the call succeeds,
and when it throws (`err`) the catch increments the fallback statistic and
execution falls through to the keyword result tagged `keyword`. -/
def classify (vipSenders : List String) (st : ClassifyState) (email : Email)
    (llm : LLMOutcome) : Classification × ClassifyState :=
  let det := detectSignals vipSenders st email
  let signals := det.1
  let st1 := det.2
  let keywordScore := calculateScore signals
  let keywordConfidence := calculateConfidence signals.signals
  if keywordConfidence ≥ 0.8 then
    (makeResult email (scoreToZone keywordScore) keywordScore keywordConfidence
       signals.signals .keyword none,
     { st1 with statsKeyword := st1.statsKeyword + 1 })
  else
    match llm with
    | .ok zone confidence reasoning llmSignals =>
      let mergedSignals := signals.signals ++
        llmSignals.map (fun s => { type := s, source := "llm" : Signal })
      (makeResult email zone (zoneToScore zone) confidence mergedSignals .llm
         (some reasoning),
       { st1 with statsLlm := st1.statsLlm + 1 })
    | .err =>
      (makeResult email (scoreToZone keywordScore) keywordScore keywordConfidence
         signals.signals .keyword none,
       { st1 with statsFallback := st1.statsFallback + 1,
                  statsKeyword := st1.statsKeyword + 1 })
    | .off =>
      (makeResult email (scoreToZone keywordScore) keywordScore keywordConfidence
         signals.signals .keyword none,
       { st1 with statsKeyword := st1.statsKeyword + 1 })

/-- What happens to one email of a batch: its LLM outcome when classify runs
normally, or `crash` when classify itself throws, which batchClassify's
per-email try/catch (classify.ts lines 267-279) turns into the fixed yellow
default. -/
inductive BatchItemOutcome where
  | normal (llm : LLMOutcome)
  | crash
deriving DecidableEq, Repr

/-- The three zone buckets batchClassify fills (classify.ts line 264). -/
structure BatchResults where
  red : List (Email × Classification) := []
  yellow : List (Email × Classification) := []
  green : List (Email × Classification) := []
deriving DecidableEq, Repr

/-- Push one classified email into its zone bucket
(`results[classification.zone].push(…)`, classify.ts line 269). -/
def pushResult (acc : BatchResults) (e : Email) (c : Classification) : BatchResults :=
  match c.zone with
  | .red => { acc with red := acc.red ++ [(e, c)] }
  | .yellow => { acc with yellow := acc.yellow ++ [(e, c)] }
  | .green => { acc with green := acc.green ++ [(e, c)] }

/-- The per-email failure default of batchClassify's catch (classify.ts
lines 271-278). -/
def failureDefault (email : Email) : Classification :=
  { emailId := email.id, zone := .yellow, score := 50, confidence := 0.3,
    signals := [], reasoning := "Classification failed — defaulting to yellow",
    method := .fallback }

/-- One iteration of batchClassify's `for (const email of emails)` loop with
its try/catch (classify.ts lines 266-280). -/
def batchStep (vipSenders : List String) (acc : BatchResults × ClassifyState)
    (item : Email × BatchItemOutcome) : BatchResults × ClassifyState :=
  match item.2 with
  | .normal llm =>
    let r := classify vipSenders acc.2 item.1 llm
    (pushResult acc.1 item.1 r.1, r.2)
  | .crash => (pushResult acc.1 item.1 (failureDefault item.1), acc.2)

/-- ClassifyAgent.batchClassify (classify.ts lines 263-289): sequential loop
over the batch (`batchStep` per email); a crashing email degrades to the
fixed yellow default instead of failing the batch.  The closing bus
publication carries no claim beyond what the buckets already show and is
omitted. -/
def batchClassify (vipSenders : List String) (st : ClassifyState)
    (items : List (Email × BatchItemOutcome)) : BatchResults × ClassifyState :=
  items.foldl (batchStep vipSenders) ({}, st)

/-- Total number of classified emails across the three buckets. -/
def BatchResults.total (r : BatchResults) : Nat :=
  r.red.length + r.yellow.length + r.green.length

/-- Lifecycle status of a seed (seed.js / types.ts). -/
inductive SeedStatus where
  | planted
  | harvested
  | expired
deriving DecidableEq, Repr

/-- A seed as checkEscalation / getActive read and write it (seed.js
`plant`); `plantedAt` / `expiresAt` are ms since epoch, source / notes /
outcome fields carry no claim and are omitted. -/
structure Seed where
  id : String := ""
  type : String := ""
  status : SeedStatus := .planted
  zone : Zone := .yellow
  score : Int := 0
  plantedAt : Int := 0
  expiresAt : Int := 0
  escalated : Bool := false
deriving DecidableEq, Repr

/-- The escalation test of SeedAgent.checkEscalation (seed.js lines 166-172,
identical in the copy concatenated into classify.ts): the seed is planted,
not yet escalated, and its remaining time `expiresAt - now` is below half of
`expiresAt - plantedAt`.  All date arithmetic is exact in JS doubles at these
magnitudes, so the ℚ comparison is the source's. -/
def escalates (now : Int) (s : Seed) : Bool :=
  s.status == .planted && !s.escalated &&
    ((s.expiresAt - now : ℚ) < ((s.expiresAt - s.plantedAt : Int) : ℚ) / 2)

/-- The mutation checkEscalation applies to a seed past its half-life:
`seed.escalated = true; seed.zone = "red"` (one-way escalation). -/
def escalateSeed (s : Seed) : Seed :=
  { s with escalated := true, zone := .red }

/-- SeedAgent.checkEscalation (seed.js lines 129-186, in-memory branch;
the DB branch applies the same test and update to the same selection):
returns (the seed list after the loop, the escalated seeds the loop
collected, in order).  Bus publications and file persistence are dropped. -/
def checkEscalation (now : Int) (seeds : List Seed) : List Seed × List Seed :=
  (seeds.map (fun s => if escalates now s then escalateSeed s else s),
   (seeds.filter (escalates now)).map escalateSeed)

/-- The comparator of the in-memory getActive (seed.js lines 240-243 and
classify.ts lines 696-700): zones differing, a red first element sorts
before, any other first element sorts after (the expiry is not consulted);
zones equal, ascending by expiry.  For a yellow and a green seed this
returns 1 in both argument orders, so it violates ECMA-262's consistency
requirement on sort comparators and the order `Array.prototype.sort`
produces is implementation-defined; Node's V8 engine is modelled below. -/
def seedCmp (a b : Seed) : Int :=
  if a.zone ≠ b.zone then (if a.zone = .red then -1 else 1)
  else a.expiresAt - b.expiresAt

/-- The tail of the initial weakly ascending run, and the remainder, as
V8's TimSort run detection walks it: after a first element `a`, keep taking
elements that do not compare before their predecessor. -/
def ascRunT {α : Type} (c : α → α → Int) : α → List α → List α × List α
  | _, [] => ([], [])
  | a, b :: rest =>
    if c b a < 0 then ([], b :: rest)
    else (b :: (ascRunT c b rest).1, (ascRunT c b rest).2)

/-- The tail of the initial strictly descending run, and the remainder
(V8 reverses this run in place; strictness keeps the sort stable). -/
def descRunT {α : Type} (c : α → α → Int) : α → List α → List α × List α
  | _, [] => ([], [])
  | a, b :: rest =>
    if c b a < 0 then (b :: (descRunT c b rest).1, (descRunT c b rest).2)
    else ([], b :: rest)

/-- V8's binary search for the insertion point of `pivot` in the sorted
segment `l[left..right)`: halve on `c pivot l[mid] < 0`, landing after
every element the pivot does not compare before (stable insertion). -/
def binPosAux {α : Type} (c : α → α → Int) (pivot : α) (l : List α)
    (left right : Nat) : Nat :=
  if _h : left < right then
    if c pivot (l.getD ((left + right) / 2) pivot) < 0 then
      binPosAux c pivot l left ((left + right) / 2)
    else
      binPosAux c pivot l ((left + right) / 2 + 1) right
  else left
termination_by right - left
decreasing_by
  · omega
  · omega

/-- Insert `x` into `l` at position `p`. -/
def insertAt {α : Type} (l : List α) (p : Nat) (x : α) : List α :=
  l.take p ++ x :: l.drop p

/-- One step of V8's binary insertion sort: insert `x` into the already
sorted list `l` at the binary-search position. -/
def binInsert {α : Type} (c : α → α → Int) (l : List α) (x : α) : List α :=
  insertAt l (binPosAux c x l 0 l.length) x

/-- `array.sort(c)` as Node's V8 executes it on arrays shorter than 64
elements (below that length TimSort's minimum run length equals the array
length, so no merge phase ever runs): detect the initial weakly ascending
— or strictly descending, then reversed — run, then binary-insert each
remaining element into the sorted front segment.  `seedCmp` being an
inconsistent comparator, ECMA-262 leaves the output order
implementation-defined, and only pinning the engine's algorithm gives the
program a definite output to reason about. -/
def v8Sort {α : Type} (c : α → α → Int) : List α → List α
  | [] => []
  | [a] => [a]
  | a :: b :: rest =>
    if c b a < 0 then
      (descRunT c a (b :: rest)).2.foldl (binInsert c)
        (a :: (descRunT c a (b :: rest)).1).reverse
    else
      (ascRunT c a (b :: rest)).2.foldl (binInsert c)
        (a :: (ascRunT c a (b :: rest)).1)

/-- SeedAgent.getActive, in-memory branch (seed.js lines 238-243 and
classify.ts lines 693-701): the planted seeds as V8's sort leaves them
under `seedCmp`. -/
def getActive_mem (seeds : List Seed) : List Seed :=
  v8Sort seedCmp (seeds.filter (fun s => s.status == .planted))

/-- Stable ascending insertion by an integer key: a consistent total
order, under which every correct sort produces the same ascending
arrangement of the keys. -/
def insertAsc {α : Type} (key : α → Int) (x : α) : List α → List α
  | [] => [x]
  | y :: ys => if key x < key y then x :: y :: ys else y :: insertAsc key x ys

/-- Sort ascending by an integer key (see `insertAsc`): the model of the
DB branch's `ORDER BY expiresAt ASC`. -/
def sortAsc {α : Type} (key : α → Int) (l : List α) : List α :=
  l.foldl (fun acc x => insertAsc key x acc) []

/-- SeedAgent.getActive, DB branch (seed.js lines 231-236): rows with
`status = planted` ordered by `expiresAt` ascending — no red-first rule. -/
def getActive_db (seeds : List Seed) : List Seed :=
  sortAsc (fun s => s.expiresAt) (seeds.filter (fun s => s.status == .planted))

/-- Red seeds first: the one pairwise ordering fact `seedCmp` still forces
on the in-memory branch (the comparator is consistent on red/non-red
pairs, inconsistent on the rest). -/
def redFirst (a b : Seed) : Prop :=
  b.zone = Zone.red → a.zone = Zone.red

/-- A stored insight (insight.js `generateInsight`'s `full` object /
insight.ts `Insight`); `timestamp` is the creation time in ms since epoch,
extra payload fields carry no claim and are omitted. -/
structure InsightRec where
  id : String := ""
  threadId : String := ""
  type : String := ""
  message : String := ""
  timestamp : Int := 0
deriving DecidableEq, Repr

/-- InsightAgent.generateInsight of insight.js (lines 195-218): builds the
full record, suppresses it when an insight of the same (type, threadId) was
stored within the last 24 hours, otherwise appends it to the store. -/
def generateInsight_js (insights : List InsightRec) (ins : InsightRec) (now : Int) :
    List InsightRec :=
  let full := { ins with id := "i" ++ toString (insights.length + 1), timestamp := now }
  if insights.any (fun i =>
      i.type == ins.type && i.threadId == ins.threadId && now - i.timestamp < 86400000) then
    insights
  else insights ++ [full]

/-- InsightAgent.generateInsight of insight.ts (lines 193-217): stamps the
record and appends it to the store unconditionally — the TS rewrite has no
deduplication window (DB insert / file save / bus publication are
unconditional side effects and are dropped). -/
def generateInsight_ts (insights : List InsightRec) (ins : InsightRec) (now : Int) :
    List InsightRec :=
  insights ++ [{ ins with timestamp := now }]

/-- JS `Math.round`: the nearest integer, halves rounding toward plus
infinity. -/
def jsRound (q : ℚ) : Int :=
  ⌊q + 1 / 2⌋

/-- InsightAgent.updateVelocity of insight.ts (lines 130-135), as a function
of the message dates (ms since epoch): 0 for fewer than 2 messages, else
messages per day over the span between the earliest and latest message,
rounded to two decimals (0 again when the span is not positive). -/
def updateVelocity_ts (dates : List Int) : ℚ :=
  if dates.length < 2 then 0
  else
    let sorted := dates.mergeSort (fun a b => decide (a ≤ b))
    let span : ℚ := ((sorted.getLast?.getD 0 - sorted.head?.getD 0 : Int) : ℚ) / 86400000
    if span > 0 then ((jsRound ((dates.length : ℚ) / span * 100) : ℚ) / 100) else 0

/-- InsightAgent.updateVelocity of insight.js (lines 86-96), as a function of
the thread's firstSeen / lastSeen (ms) and message count: the elapsed days
are clamped below at 1, and the rate is rounded to one decimal. -/
def updateVelocity_js (firstSeen lastSeen : Int) (messageCount : Nat) : ℚ :=
  if messageCount < 2 then 0
  else
    let days : ℚ := max 1 (((lastSeen - firstSeen : Int) : ℚ) / 86400000)
    ((jsRound ((messageCount : ℚ) / days * 10) : ℚ) / 10)

/-- The orchestrator states (state-machine source, `enum State`). -/
inductive PState where
  | IDLE
  | SYNCING
  | PROCESSING
  | SUGGESTING
  | COMPLETE
  | ERROR
deriving DecidableEq, Repr

/-- The fixed transition table TRANSITIONS (state-machine source lines
26-33). -/
def TRANSITIONS : PState → List PState
  | .IDLE => [.SYNCING]
  | .SYNCING => [.PROCESSING, .ERROR]
  | .PROCESSING => [.SUGGESTING, .ERROR]
  | .SUGGESTING => [.COMPLETE, .ERROR]
  | .COMPLETE => [.IDLE]
  | .ERROR => [.IDLE]

/-- One entry of the append-only transition history. -/
structure TransitionRecord where
  src : PState
  dst : PState
  timestamp : Int
deriving DecidableEq, Repr

/-- An event the state machine publishes on the bus (source and payload
reduced to what the claims mention: the event name and the two states). -/
structure StateEvent where
  event : String
  src : PState
  dst : PState
deriving DecidableEq, Repr

/-- The StateMachine's fields (state-machine source lines 35-40). -/
structure StateMachine where
  state : PState := .IDLE
  history : List TransitionRecord := []
  errorCount : Nat := 0
  lastError : Option String := none
  startTime : Option Int := none
deriving DecidableEq, Repr

/-- StateMachine.transition (state-machine source lines 42-72): an illegal
target is rejected — invalid_transition published, state untouched, false
returned; a legal one records history, keeps the SYNCING entry time,
counts errors with the meta error string, publishes the transition and
returns true.  `metaErr` is the optional `meta.error` string, the only meta
field the machine reads. -/
def StateMachine.transition (sm : StateMachine) (newState : PState)
    (metaErr : Option String) (now : Int) : Bool × StateMachine × List StateEvent :=
  let allowed := TRANSITIONS sm.state
  if newState ∉ allowed then
    (false, sm, [{ event := "state.invalid_transition", src := sm.state, dst := newState }])
  else
    let prev := sm.state
    let sm1 := { sm with state := newState,
                         history := sm.history ++ [{ src := prev, dst := newState, timestamp := now }] }
    let sm2 := if newState = .SYNCING then { sm1 with startTime := some now } else sm1
    let sm3 :=
      if newState = .ERROR then
        { sm2 with errorCount := sm2.errorCount + 1,
                   lastError := some (metaErr.getD "Unknown error") }
      else sm2
    (true, sm3, [{ event := "state.transition", src := prev, dst := newState }])

/-- One bus subscriber, reduced to what delivery observes: an identity and
whether its handler throws when invoked. -/
structure Subscriber where
  id : Nat
  throws : Bool
deriving DecidableEq, Repr

/-- Node's `EventEmitter.emit` over the listeners of one event: handlers run
synchronously in registration order; a throwing handler makes emit propagate
the exception, so the handlers after it are not invoked.  Returns (the ids
invoked, in order; whether an exception escaped). -/
def emitList : List Subscriber → List Nat × Bool
  | [] => ([], false)
  | h :: t =>
    if h.throws then ([h.id], true)
    else
      let r := emitList t
      (h.id :: r.1, r.2)

/-- The bus state InsightBus.publish touches: the listener registry in
registration order, the ring-buffered event log and the event counter. -/
structure BusState where
  listeners : List (String × Subscriber) := []
  retainEvents : Nat := 1000
  eventLog : List String := []
  totalEvents : Nat := 0
deriving DecidableEq, Repr

/-- InsightBus.subscribe (bus.js lines 62-65): `this.on` appends the handler
to the event's listener list. -/
def subscribe (bs : BusState) (event : String) (h : Subscriber) : BusState :=
  { bs with listeners := bs.listeners ++ [(event, h)] }

/-- The listeners registered for `event`, in registration order. -/
def handlersFor (bs : BusState) (event : String) : List Subscriber :=
  (bs.listeners.filter (fun p => p.1 == event)).map (fun p => p.2)

/-- InsightBus.publish (bus.js lines 31-55): count the event, ring-buffer it,
then `emit(event, …)` followed by `emit("*", …)`.  Returns ((the subscriber
ids the event reached, in invocation order; whether an exception escaped
publish), the updated bus).  When the first emit throws, the exception
propagates out of publish and the wildcard emit is never reached. -/
def publish (bs : BusState) (event : String) : (List Nat × Bool) × BusState :=
  let log1 := bs.eventLog ++ [event]
  let bs1 := { bs with totalEvents := bs.totalEvents + 1,
                       eventLog := if log1.length > bs.retainEvents then log1.drop 1 else log1 }
  let r1 := emitList (handlersFor bs1 event)
  if r1.2 then ((r1.1, true), bs1)
  else
    let r2 := emitList (handlersFor bs1 "*")
    ((r1.1 ++ r2.1, r2.2), bs1)


def signalContrib (s : Signal) : Int :=
  if s.type == "action-required" then 40
  else if s.type == "urgency" then
    (if s.level == "high" then 25 else if s.level == "medium" then 10 else -5)
  else if s.type == "vip-sender" then 15
  else if s.type == "gmail-important" then 5
  else if s.type == "gmail-starred" then 15
  else if s.type == "thread-reply" then 10
  else if s.type == "frequent-sender" then min s.count 5
  else if s.type == "newsletter" then -30
  else if s.type == "seasonal-greeting" then -40
  else if s.type == "auto-notification" then -25
  else if s.type == "marketing" then -20
  else if s.type == "duplicate" then -(if s.count ≥ 3 then 35 else 20)
  else 0

def isNegativeSignal (s : Signal) : Bool :=
  s.type == "newsletter" || s.type == "seasonal-greeting" ||
  s.type == "auto-notification" || s.type == "marketing" || s.type == "duplicate"

theorem scoreStep_eq (acc : Int × Bool) (s : Signal) :
    scoreStep acc s = (acc.1 + signalContrib s, acc.2 || isNegativeSignal s) := by
  rcases acc with ⟨a, b⟩
  by_cases h1 : s.type = "action-required"
  · simp [scoreStep, signalContrib, isNegativeSignal, h1]
  by_cases h2 : s.type = "urgency"
  · simp [scoreStep, signalContrib, isNegativeSignal, h1, h2]
  by_cases h3 : s.type = "vip-sender"
  · simp [scoreStep, signalContrib, isNegativeSignal, h1, h2, h3]
  by_cases h4 : s.type = "gmail-important"
  · simp [scoreStep, signalContrib, isNegativeSignal, h1, h2, h3, h4]
  by_cases h5 : s.type = "gmail-starred"
  · simp [scoreStep, signalContrib, isNegativeSignal, h1, h2, h3, h4, h5]
  by_cases h6 : s.type = "thread-reply"
  · simp [scoreStep, signalContrib, isNegativeSignal, h1, h2, h3, h4, h5, h6]
  by_cases h7 : s.type = "frequent-sender"
  · simp [scoreStep, signalContrib, isNegativeSignal, h1, h2, h3, h4, h5, h6, h7]
  by_cases h8 : s.type = "newsletter"
  · simp [scoreStep, signalContrib, isNegativeSignal, h1, h2, h3, h4, h5, h6, h7, h8,
      sub_eq_add_neg]
  by_cases h9 : s.type = "seasonal-greeting"
  · simp [scoreStep, signalContrib, isNegativeSignal, h1, h2, h3, h4, h5, h6, h7, h8, h9,
      sub_eq_add_neg]
  by_cases h10 : s.type = "auto-notification"
  · simp [scoreStep, signalContrib, isNegativeSignal, h1, h2, h3, h4, h5, h6, h7, h8, h9, h10,
      sub_eq_add_neg]
  by_cases h11 : s.type = "marketing"
  · simp [scoreStep, signalContrib, isNegativeSignal, h1, h2, h3, h4, h5, h6, h7, h8, h9, h10,
      h11, sub_eq_add_neg]
  by_cases h12 : s.type = "duplicate"
  · simp [scoreStep, signalContrib, isNegativeSignal, h1, h2, h3, h4, h5, h6, h7, h8, h9, h10,
      h11, h12, sub_eq_add_neg]
  simp [scoreStep, signalContrib, isNegativeSignal, h1, h2, h3, h4, h5, h6, h7, h8, h9, h10,
    h11, h12]

theorem foldl_scoreStep (l : List Signal) (a : Int) (b : Bool) :
    l.foldl scoreStep (a, b) = (a + (l.map signalContrib).sum, b || l.any isNegativeSignal) := by
  induction l generalizing a b with
  | nil => simp
  | cons s t ih =>
    simp only [List.foldl_cons, scoreStep_eq, ih, List.map_cons, List.sum_cons, List.any_cons,
      Prod.mk.injEq]
    exact ⟨by omega, by simp [Bool.or_assoc]⟩

theorem scoreFold_eq (l : List Signal) :
    scoreFold l = (50 + (l.map signalContrib).sum, l.any isNegativeSignal) := by
  simp [scoreFold, foldl_scoreStep]

/-- Claim C2: for every signal list without a forced zone in which at least
one negative signal (newsletter, seasonal-greeting, auto-notification,
marketing or duplicate) and at least one action-required signal both occur,
calculateScore returns at least 75, so the score-to-zone mapping yields
red. -/
theorem override_rule_forces_red (sa : SignalArray)
    (hforced : sa.forcedZone = none)
    (hneg : ∃ s ∈ sa.signals, isNegativeSignal s = true)
    (hact : ∃ s ∈ sa.signals, s.type = "action-required") :
    75 ≤ calculateScore sa ∧ scoreToZone (calculateScore sa) = Zone.red := by
  have hnegb : sa.signals.any isNegativeSignal = true := by
    rcases hneg with ⟨s, hs, h⟩
    exact List.any_eq_true.mpr ⟨s, hs, h⟩
  have hactb : sa.signals.any (fun s => s.type == "action-required") = true := by
    rcases hact with ⟨s, hs, h⟩
    exact List.any_eq_true.mpr ⟨s, hs, by simp [h]⟩
  have hscore : 75 ≤ calculateScore sa := by
    simp only [calculateScore, hforced, scoreFold_eq, hnegb, hactb, Bool.and_self, if_true]
    have h1 : (75 : Int) ≤ max (50 + (sa.signals.map signalContrib).sum) 75 :=
      le_max_right _ _
    have h2 : (75 : Int) ≤ min 100 (max (50 + (sa.signals.map signalContrib).sum) 75) :=
      le_min (by norm_num) h1
    exact le_trans h2 (le_max_right 0 _)
  refine ⟨hscore, ?_⟩
  simp [scoreToZone, hscore]

def overrideWitnessSignals : SignalArray :=
  { forcedZone := none,
    signals := [({ type := "newsletter" } : Signal), ({ type := "action-required" } : Signal)] }

/-- Witness for claim C2: a concrete signal list holding one newsletter and
one action-required signal. -/
theorem override_rule_forces_red_witness :
    75 ≤ calculateScore overrideWitnessSignals
    ∧ scoreToZone (calculateScore overrideWitnessSignals) = Zone.red :=
  override_rule_forces_red overrideWitnessSignals rfl
    ⟨({ type := "newsletter" } : Signal), by decide⟩
    ⟨({ type := "action-required" } : Signal), by decide⟩

theorem scoreToZone_zoneToScore (z : Zone) : scoreToZone (zoneToScore z) = z := by
  cases z <;> decide

/-- The three buckets of a batch result, flattened. -/
def bucketMembers (r : BatchResults) : List (Email × Classification) :=
  r.red ++ r.yellow ++ r.green

theorem classify_zone_agrees (vip : List String) (st : ClassifyState) (email : Email)
    (llm : LLMOutcome) :
    (classify vip st email llm).1.zone = scoreToZone (classify vip st email llm).1.score := by
  unfold classify
  by_cases hconf : calculateConfidence (detectSignals vip st email).1.signals ≥ 0.8
  · simp [hconf, makeResult]
  · cases llm with
    | ok z c r sigs => simp [hconf, makeResult, scoreToZone_zoneToScore]
    | err => simp [hconf, makeResult]
    | off => simp [hconf, makeResult]

theorem pushResult_mem (acc : BatchResults) (e : Email) (c : Classification)
    (p : Email × Classification) (hp : p ∈ bucketMembers (pushResult acc e c)) :
    p ∈ bucketMembers acc ∨ p = (e, c) := by
  rcases hc : c.zone <;>
    simp only [pushResult, hc, bucketMembers, List.append_assoc, List.mem_append,
      List.mem_singleton] at hp ⊢ <;> tauto

theorem batchClassify_mem (vip : List String) :
    ∀ (items : List (Email × BatchItemOutcome)) (acc : BatchResults × ClassifyState)
      (p : Email × Classification),
      (∀ q ∈ bucketMembers acc.1, q.2.zone = scoreToZone q.2.score) →
      p ∈ bucketMembers (items.foldl (batchStep vip) acc).1 →
      p.2.zone = scoreToZone p.2.score := by
  intro items
  induction items with
  | nil => intro acc p hacc hp; exact hacc p hp
  | cons item t ih =>
    intro acc p hacc hp
    refine ih (batchStep vip acc item) p ?_ hp
    intro q hq
    rcases item with ⟨e, outcome⟩
    cases outcome with
    | normal llm =>
      rcases pushResult_mem _ _ _ _ (by simpa [batchStep] using hq) with h | h
      · exact hacc q h
      · subst h; exact classify_zone_agrees vip acc.2 e llm
    | crash =>
      rcases pushResult_mem _ _ _ _ (by simpa [batchStep] using hq) with h | h
      · exact hacc q h
      · subst h
        norm_num [failureDefault, scoreToZone]

/-- Claim C6: every Classification produced by classify (keyword, LLM,
forced-zone and LLM-failure paths) and by batchClassify (including the
per-email failure default) has `zone = scoreToZone score`. -/
theorem classification_zone_score_agree :
    (∀ (vip : List String) (st : ClassifyState) (email : Email) (llm : LLMOutcome),
       (classify vip st email llm).1.zone = scoreToZone (classify vip st email llm).1.score)
    ∧ (∀ (vip : List String) (st : ClassifyState) (items : List (Email × BatchItemOutcome))
         (p : Email × Classification), p ∈ bucketMembers (batchClassify vip st items).1 →
         p.2.zone = scoreToZone p.2.score) :=
  ⟨classify_zone_agrees,
   fun vip st items p hp =>
     batchClassify_mem vip items ({}, st) p (by simp [bucketMembers]) (by simpa [batchClassify] using hp)⟩

/-- Counterexample to claim C1 as stated: a no-signal email (keyword
confidence 0.3 < 0.8) whose LLM call throws is returned with
`method = keyword`, not `method = fallback`. -/
theorem classify_llm_error_method_cex :
    calculateConfidence (detectSignals [] {} ({ id := "e0", subject := "hello" } : Email)).1.signals < 0.8
    ∧ (classify [] {} ({ id := "e0", subject := "hello" } : Email) LLMOutcome.err).1.method =
        ClassifyMethod.keyword
    ∧ ClassifyMethod.keyword ≠ ClassifyMethod.fallback := by
  have hsig : (detectSignals [] {} ({ id := "e0", subject := "hello" } : Email)).1.signals = [] := by
    decide
  have hconf : ¬(calculateConfidence
      (detectSignals [] {} ({ id := "e0", subject := "hello" } : Email)).1.signals ≥ 0.8) := by
    rw [hsig]; norm_num [calculateConfidence]
  refine ⟨?_, ?_, by decide⟩
  · rw [hsig]; norm_num [calculateConfidence]
  · simp [classify, hconf, makeResult]

theorem pushResult_total (acc : BatchResults) (e : Email) (c : Classification) :
    (pushResult acc e c).total = acc.total + 1 := by
  rcases hc : c.zone <;> simp [pushResult, hc, BatchResults.total] <;> omega

theorem foldl_batchStep_total (vip : List String) :
    ∀ (items : List (Email × BatchItemOutcome)) (acc : BatchResults × ClassifyState),
      ((items.foldl (batchStep vip) acc).1).total = acc.1.total + items.length := by
  intro items
  induction items with
  | nil => simp
  | cons item t ih =>
    intro acc
    rcases item with ⟨e, outcome⟩
    cases outcome with
    | normal llm => simp [batchStep, ih, pushResult_total]; omega
    | crash => simp [batchStep, ih, pushResult_total]; omega

/-- Claim C1 (amended): for every email whose keyword confidence is below
0.8, when the LLM call throws (or returns an unparseable or out-of-enum
zone, which classifyWithLLM raises the same way) classify returns the
keyword result — tagged `method = keyword`, with the failure counted in the
agent's fallback statistic — and batchClassify classifies every email of the
batch (the three buckets together hold exactly one entry per input email),
so a single failure never aborts the batch. -/
theorem classify_llm_error_fallback_spec :
    (∀ (vip : List String) (st : ClassifyState) (email : Email),
       calculateConfidence (detectSignals vip st email).1.signals < 0.8 →
       (classify vip st email LLMOutcome.err).1 =
         makeResult email (scoreToZone (calculateScore (detectSignals vip st email).1))
           (calculateScore (detectSignals vip st email).1)
           (calculateConfidence (detectSignals vip st email).1.signals)
           (detectSignals vip st email).1.signals ClassifyMethod.keyword none
       ∧ (classify vip st email LLMOutcome.err).1.method = ClassifyMethod.keyword
       ∧ (classify vip st email LLMOutcome.err).2.statsFallback =
           (detectSignals vip st email).2.statsFallback + 1)
    ∧ (∀ (vip : List String) (st : ClassifyState) (items : List (Email × BatchItemOutcome)),
       (batchClassify vip st items).1.total = items.length) := by
  constructor
  · intro vip st email h
    have hconf : ¬(calculateConfidence (detectSignals vip st email).1.signals ≥ 0.8) :=
      not_le.mpr h
    refine ⟨?_, ?_, ?_⟩ <;> simp [classify, hconf, makeResult]
  · intro vip st items
    show ((items.foldl (batchStep vip) ({}, st)).1).total = items.length
    rw [foldl_batchStep_total]
    simp [BatchResults.total]

/-- Claim C4: a transition succeeds exactly when the fixed table allows it;
an illegal transition returns false, publishes an invalid_transition event
and leaves the whole machine (state, history, counters) unchanged; from
ERROR the transition to IDLE is always allowed. -/
theorem transition_table_enforced (sm : StateMachine) (ns : PState)
    (metaErr : Option String) (now : Int) :
    ((sm.transition ns metaErr now).1 = true ↔ ns ∈ TRANSITIONS sm.state)
    ∧ ((sm.transition ns metaErr now).1 = false →
        (sm.transition ns metaErr now).2.1 = sm
        ∧ (sm.transition ns metaErr now).2.2 =
            [{ event := "state.invalid_transition", src := sm.state, dst := ns }])
    ∧ (sm.state = PState.ERROR → (sm.transition PState.IDLE metaErr now).1 = true) := by
  by_cases h : ns ∈ TRANSITIONS sm.state
  · refine ⟨by simp [StateMachine.transition, h], by simp [StateMachine.transition, h], ?_⟩
    intro herr
    simp [StateMachine.transition, herr, TRANSITIONS]
  · refine ⟨by simp [StateMachine.transition, h], by simp [StateMachine.transition, h], ?_⟩
    intro herr
    simp [StateMachine.transition, herr, TRANSITIONS]

/-- Claim C3, evaluated at the failing input: generating the same
(type, threadId) insight twice one hour apart stores two insights in
insight.ts (no deduplication window) but exactly one in insight.js, which
implements the documented 24-hour suppression. -/
theorem generateInsight_dedup_divergence :
    (generateInsight_ts
        (generateInsight_ts [] ({ threadId := "t1", type := "hot-thread" } : InsightRec) 1000)
        ({ threadId := "t1", type := "hot-thread" } : InsightRec) 3601000).length = 2
    ∧ (generateInsight_js
        (generateInsight_js [] ({ threadId := "t1", type := "hot-thread" } : InsightRec) 1000)
        ({ threadId := "t1", type := "hot-thread" } : InsightRec) 3601000).length = 1 := by
  decide

theorem emitList_char (hs : List Subscriber) :
    (emitList hs).1 = (hs.takeWhile (fun h => !h.throws)).map Subscriber.id ++
      ((hs.dropWhile (fun h => !h.throws)).head?.map Subscriber.id).toList
    ∧ (emitList hs).2 = hs.any (fun h => h.throws) := by
  induction hs with
  | nil => simp [emitList]
  | cons h t ih =>
    by_cases hthrow : h.throws
    · simp [emitList, hthrow, List.takeWhile, List.dropWhile]
    · simp only [emitList, hthrow, if_neg, Bool.false_eq_true, not_false_iff]
      simp [List.takeWhile_cons, List.dropWhile_cons, hthrow, ih.1, ih.2]

theorem emitList_all_ok (hs : List Subscriber) (h : ∀ s ∈ hs, s.throws = false) :
    emitList hs = (hs.map Subscriber.id, false) := by
  induction hs with
  | nil => simp [emitList]
  | cons x t ih =>
    have hx : x.throws = false := h x (List.mem_cons_self x t)
    have ht : ∀ s ∈ t, s.throws = false := fun s hs => h s (List.mem_cons_of_mem x hs)
    simp [emitList, hx, ih ht]

/-- Claim C9 (amended): the bus delivers an event synchronously in
registration order — when no subscriber throws, every subscriber of the
event and then of the wildcard receives it — but a throwing subscriber stops
delivery: exactly the subscribers up to and including the thrower are
invoked and the exception propagates out of publish. -/
theorem bus_delivery_spec :
    (∀ hs : List Subscriber,
       (emitList hs).1 = (hs.takeWhile (fun h => !h.throws)).map Subscriber.id ++
         ((hs.dropWhile (fun h => !h.throws)).head?.map Subscriber.id).toList
       ∧ (emitList hs).2 = hs.any (fun h => h.throws))
    ∧ (∀ (bs : BusState) (event : String),
       (∀ s ∈ handlersFor bs event, s.throws = false) →
       (∀ s ∈ handlersFor bs "*", s.throws = false) →
       (publish bs event).1 =
         ((handlersFor bs event).map Subscriber.id ++ (handlersFor bs "*").map Subscriber.id,
          false)) := by
  refine ⟨emitList_char, ?_⟩
  intro bs event hev hwild
  have hup : ∀ (log : List String) (n : Nat) (ev : String),
      handlersFor { bs with eventLog := log, totalEvents := n } ev = handlersFor bs ev :=
    fun _ _ _ => rfl
  simp [publish, hup, emitList_all_ok _ hev, emitList_all_ok _ hwild]

/-- Counterexample to claim C9 as stated: with two subscribers of "ev" in
registration order, the first throwing, publish invokes only the first —
the subscriber registered after the thrower never receives the event. -/
theorem publish_throwing_subscriber_cex :
    (handlersFor (subscribe (subscribe {} "ev" ({ id := 1, throws := true } : Subscriber))
        "ev" ({ id := 2, throws := false } : Subscriber)) "ev").map Subscriber.id = [1, 2]
    ∧ (publish (subscribe (subscribe {} "ev" ({ id := 1, throws := true } : Subscriber))
        "ev" ({ id := 2, throws := false } : Subscriber)) "ev").1 = ([1], true) := by
  decide

theorem escalates_iff (now : Int) (s : Seed) :
    escalates now s = true ↔
      (s.status = SeedStatus.planted ∧ s.escalated = false ∧
        (s.expiresAt - now : ℚ) < (s.expiresAt - s.plantedAt : ℚ) / 2) := by
  simp [escalates, Bool.and_eq_true, beq_iff_eq, Bool.not_eq_true', decide_eq_true_eq,
    and_assoc]

theorem escalates_after_step (now : Int) (s : Seed) :
    escalates now (if escalates now s then escalateSeed s else s) = false := by
  by_cases hc : escalates now s = true
  · rw [if_pos hc]
    simp [escalates, escalateSeed]
  · rw [if_neg hc]
    exact Bool.not_eq_true _ |>.mp hc

/-- Claim C5: checkEscalation escalates (sets `escalated = true`, forces
`zone = red`) exactly the planted, not-yet-escalated seeds whose remaining
time is below half of their shelf interval, leaves every other seed
untouched, and is idempotent: an immediate second run changes nothing and
escalates nothing new. -/
theorem checkEscalation_exact_and_idempotent (now : Int) (seeds : List Seed) :
    List.Forall₂ (fun s t =>
      ((s.status = SeedStatus.planted ∧ s.escalated = false ∧
          (s.expiresAt - now : ℚ) < (s.expiresAt - s.plantedAt : ℚ) / 2) →
        t = { s with escalated := true, zone := Zone.red })
      ∧ (¬(s.status = SeedStatus.planted ∧ s.escalated = false ∧
          (s.expiresAt - now : ℚ) < (s.expiresAt - s.plantedAt : ℚ) / 2) →
        t = s))
      seeds (checkEscalation now seeds).1
    ∧ (checkEscalation now (checkEscalation now seeds).1).1 = (checkEscalation now seeds).1
    ∧ (checkEscalation now (checkEscalation now seeds).1).2 = [] := by
  refine ⟨?_, ?_, ?_⟩
  · show List.Forall₂ _ seeds (seeds.map (fun s => if escalates now s then escalateSeed s else s))
    induction seeds with
    | nil => exact List.Forall₂.nil
    | cons s t ih =>
      refine List.Forall₂.cons ⟨?_, ?_⟩ ih
      · intro hp
        simp only [if_pos ((escalates_iff now s).mpr hp)]
        rfl
      · intro hn
        simp only [if_neg (fun hc => hn ((escalates_iff now s).mp hc))]
  · show ((checkEscalation now seeds).1.map
        (fun s => if escalates now s then escalateSeed s else s)) = (checkEscalation now seeds).1
    show ((seeds.map fun s => if escalates now s then escalateSeed s else s).map
        (fun s => if escalates now s then escalateSeed s else s)) = _
    rw [List.map_map]
    refine List.map_congr_left ?_
    intro s _
    show (if escalates now (if escalates now s then escalateSeed s else s) then _ else _) = _
    rw [if_neg (by rw [escalates_after_step]; exact Bool.false_ne_true)]
  · show (((checkEscalation now seeds).1.filter (escalates now)).map escalateSeed) = []
    have hfil : (checkEscalation now seeds).1.filter (escalates now) = [] := by
      refine List.filter_eq_nil_iff.mpr ?_
      intro x hx
      rcases List.mem_map.mp hx with ⟨s, _, hs⟩
      rw [← hs, escalates_after_step]
      exact Bool.false_ne_true
    rw [hfil]
    rfl

-- The red/non-red half of `seedCmp` is consistent; these two facts are all
-- the ordering argument below needs.

theorem seedCmp_red_block_1 (x y : Seed) (h : ¬(seedCmp x y < 0))
    (hx : x.zone = Zone.red) : y.zone = Zone.red := by
  cases hy : y.zone <;> simp_all [seedCmp]

theorem seedCmp_nonred_lt (x y : Seed) (h : seedCmp x y < 0)
    (hx : x.zone ≠ Zone.red) : y.zone = x.zone := by
  by_cases hz : x.zone = y.zone
  · exact hz.symm
  · simp [seedCmp, Ne.symm, hz, hx] at h

theorem ascRunT_append {α : Type} (c : α → α → Int) :
    ∀ (a : α) (l : List α), (ascRunT c a l).1 ++ (ascRunT c a l).2 = l := by
  intro a l
  induction l generalizing a with
  | nil => simp [ascRunT]
  | cons b rest ih =>
    by_cases hc : c b a < 0
    · simp [ascRunT, hc]
    · simp [ascRunT, hc, ih b]

theorem descRunT_append {α : Type} (c : α → α → Int) :
    ∀ (a : α) (l : List α), (descRunT c a l).1 ++ (descRunT c a l).2 = l := by
  intro a l
  induction l generalizing a with
  | nil => simp [descRunT]
  | cons b rest ih =>
    by_cases hc : c b a < 0
    · simp [descRunT, hc, ih b]
    · simp [descRunT, hc]

theorem ascRunT_chain {α : Type} (c : α → α → Int) :
    ∀ (a : α) (l : List α), List.Chain (fun x y => ¬(c y x < 0)) a (ascRunT c a l).1 := by
  intro a l
  induction l generalizing a with
  | nil => simp [ascRunT]
  | cons b rest ih =>
    by_cases hc : c b a < 0
    · simp [ascRunT, hc]
    · simp only [ascRunT, if_neg hc]
      exact List.Chain.cons hc (ih b)

theorem descRunT_chain {α : Type} (c : α → α → Int) :
    ∀ (a : α) (l : List α), List.Chain (fun x y => c y x < 0) a (descRunT c a l).1 := by
  intro a l
  induction l generalizing a with
  | nil => simp [descRunT]
  | cons b rest ih =>
    by_cases hc : c b a < 0
    · simp only [descRunT, if_pos hc]
      exact List.Chain.cons hc (ih b)
    · simp [descRunT, hc]

theorem insertAt_perm {α : Type} (l : List α) (p : Nat) (x : α) :
    (insertAt l p x).Perm (x :: l) := by
  have h := @List.perm_middle α x (l.take p) (l.drop p)
  rwa [List.take_append_drop] at h

theorem binInsert_perm {α : Type} (c : α → α → Int) (l : List α) (x : α) :
    (binInsert c l x).Perm (x :: l) :=
  insertAt_perm l _ x

theorem foldl_binInsert_perm {α : Type} (c : α → α → Int) :
    ∀ (rem acc : List α), (rem.foldl (binInsert c) acc).Perm (acc ++ rem) := by
  intro rem
  induction rem with
  | nil => simp
  | cons x xs ih =>
    intro acc
    have h1 := ih (binInsert c acc x)
    have h2 : (binInsert c acc x ++ xs).Perm (x :: (acc ++ xs)) :=
      (binInsert_perm c acc x).append_right xs
    exact (h1.trans h2).trans List.perm_middle.symm

theorem v8Sort_perm {α : Type} (c : α → α → Int) (l : List α) :
    (v8Sort c l).Perm l := by
  match l with
  | [] => exact List.Perm.refl _
  | [a] => exact List.Perm.refl _
  | a :: b :: rest =>
    by_cases hc : c b a < 0
    · rw [v8Sort, if_pos hc]
      refine (foldl_binInsert_perm c _ _).trans ?_
      refine List.Perm.trans (List.Perm.append_right _ (List.reverse_perm _)) ?_
      have h := descRunT_append c a (b :: rest)
      rw [List.cons_append, h]
    · rw [v8Sort, if_neg hc]
      refine (foldl_binInsert_perm c _ _).trans ?_
      have h := ascRunT_append c a (b :: rest)
      rw [List.cons_append, h]

theorem binPosAux_nonred (pivot : Seed) (hp : pivot.zone ≠ Zone.red) (l : List Seed)
    (hl : l.Pairwise redFirst) :
    ∀ left right, right ≤ l.length →
      (∀ j, (hj : j < l.length) → l[j].zone = Zone.red → j < right) →
      (∀ j, (hj : j < l.length) → l[j].zone = Zone.red →
        j < binPosAux seedCmp pivot l left right) := by
  intro left right
  induction left, right using binPosAux.induct seedCmp pivot l with
  | case1 left right hlt hcmp ih =>
    intro hle hinv
    rw [binPosAux, dif_pos hlt, if_pos hcmp]
    refine ih (by omega) ?_
    intro j hj hred
    have hmidlt : (left + right) / 2 < l.length := by omega
    rw [List.getD_eq_getElem l pivot hmidlt] at hcmp
    have hmid_nonred : l[(left + right) / 2].zone ≠ Zone.red := by
      have := seedCmp_nonred_lt pivot _ hcmp hp
      rw [this]; exact hp
    rcases Nat.lt_trichotomy j ((left + right) / 2) with h | h | h
    · exact h
    · exact absurd (h ▸ hred) hmid_nonred
    · have hpw := List.pairwise_iff_getElem.mp hl ((left + right) / 2) j hmidlt hj h
      exact absurd (hpw hred) hmid_nonred
  | case2 left right hlt hcmp ih =>
    intro hle hinv
    rw [binPosAux, dif_pos hlt, if_neg hcmp]
    exact ih hle hinv
  | case3 left right hlt =>
    intro hle hinv
    rw [binPosAux, dif_neg hlt]
    intro j hj hred
    exact lt_of_lt_of_le (hinv j hj hred) (by omega)

theorem binPosAux_red (pivot : Seed) (hp : pivot.zone = Zone.red) (l : List Seed)
    (hl : l.Pairwise redFirst) :
    ∀ left right, right ≤ l.length →
      (∀ j, (hj : j < l.length) → j < left → l[j].zone = Zone.red) →
      (∀ j, (hj : j < l.length) → j < binPosAux seedCmp pivot l left right →
        l[j].zone = Zone.red) := by
  intro left right
  induction left, right using binPosAux.induct seedCmp pivot l with
  | case1 left right hlt hcmp ih =>
    intro hle hinv
    rw [binPosAux, dif_pos hlt, if_pos hcmp]
    exact ih (by omega) hinv
  | case2 left right hlt hcmp ih =>
    intro hle hinv
    rw [binPosAux, dif_pos hlt, if_neg hcmp]
    refine ih hle ?_
    intro j hj hjlt
    have hmidlt : (left + right) / 2 < l.length := by omega
    rw [List.getD_eq_getElem l pivot hmidlt] at hcmp
    have hmid_red : l[(left + right) / 2].zone = Zone.red :=
      seedCmp_red_block_1 pivot _ hcmp hp
    rcases Nat.lt_trichotomy j ((left + right) / 2) with h | h | h
    · exact List.pairwise_iff_getElem.mp hl j ((left + right) / 2) hj hmidlt h hmid_red
    · exact h ▸ hmid_red
    · exact hinv j hj (by omega)
  | case3 left right hlt =>
    intro hle hinv
    rw [binPosAux, dif_neg hlt]
    exact hinv

theorem insertAt_pairwise {α : Type} (P : α → α → Prop) (l : List α) (p : Nat) (x : α)
    (hl : l.Pairwise P)
    (hbefore : ∀ a ∈ l.take p, P a x)
    (hafter : ∀ b ∈ l.drop p, P x b) :
    (insertAt l p x).Pairwise P := by
  have hsplit : (l.take p ++ l.drop p).Pairwise P := by
    rw [List.take_append_drop]; exact hl
  rcases List.pairwise_append.mp hsplit with ⟨h1, h2, h3⟩
  refine List.pairwise_append.mpr ⟨h1, ?_, ?_⟩
  · exact List.pairwise_cons.mpr ⟨hafter, h2⟩
  · intro a ha b hb
    rcases List.mem_cons.mp hb with hb | hb
    · exact hb ▸ hbefore a ha
    · exact h3 a ha b hb

theorem binInsert_redFirst (l : List Seed) (hl : l.Pairwise redFirst) (x : Seed) :
    (binInsert seedCmp l x).Pairwise redFirst := by
  by_cases hx : x.zone = Zone.red
  · refine insertAt_pairwise redFirst l _ x hl ?_ ?_
    · intro a ha
      rcases List.mem_iff_getElem.mp ha with ⟨j, hj, hja⟩
      have hjlen : j < l.length := by
        have := hj; rw [List.length_take] at this; omega
      have hjlt : j < binPosAux seedCmp x l 0 l.length := by
        have := hj; rw [List.length_take] at this; omega
      have hred := binPosAux_red x hx l hl 0 l.length (le_refl _)
        (fun j hjl hj0 => absurd hj0 (Nat.not_lt_zero j)) j hjlen hjlt
      intro _
      have : (l.take (binPosAux seedCmp x l 0 l.length))[j] = l[j] :=
        List.getElem_take l
      rw [← hja, this]
      exact hred
    · intro b _ _
      exact hx
  · refine insertAt_pairwise redFirst l _ x hl ?_ ?_
    · intro a _ hxr
      exact absurd hxr hx
    · intro b hb hbr
      exfalso
      rcases List.mem_iff_getElem.mp hb with ⟨j, hj, hjb⟩
      have hjlen : binPosAux seedCmp x l 0 l.length + j < l.length := by
        have := hj; rw [List.length_drop] at this; omega
      have hbred : l[binPosAux seedCmp x l 0 l.length + j].zone = Zone.red := by
        have : (l.drop (binPosAux seedCmp x l 0 l.length))[j] =
            l[binPosAux seedCmp x l 0 l.length + j] := List.getElem_drop l
        rw [← this, hjb]
        exact hbr
      have := binPosAux_nonred x hx l hl 0 l.length (le_refl _)
        (fun j hjl _ => hjl) _ hjlen hbred
      omega

theorem foldl_binInsert_redFirst :
    ∀ (rem acc : List Seed), acc.Pairwise redFirst →
      (rem.foldl (binInsert seedCmp) acc).Pairwise redFirst := by
  intro rem
  induction rem with
  | nil => intro acc hacc; exact hacc
  | cons x xs ih =>
    intro acc hacc
    exact ih (binInsert seedCmp acc x) (binInsert_redFirst acc hacc x)

theorem redFirst_trans : ∀ a b c : Seed, redFirst a b → redFirst b c → redFirst a c :=
  fun _ _ _ hab hbc h => hab (hbc h)

theorem chain_redFirst_pairwise (a : Seed) (l : List Seed)
    (h : List.Chain redFirst a l) : (a :: l).Pairwise redFirst := by
  haveI : IsTrans Seed redFirst := ⟨redFirst_trans⟩
  exact List.chain'_iff_pairwise.mp h

theorem ascRun_redFirst (a : Seed) (l : List Seed) :
    (a :: (ascRunT seedCmp a l).1).Pairwise redFirst := by
  refine chain_redFirst_pairwise a _ ?_
  refine List.Chain.imp ?_ (ascRunT_chain seedCmp a l)
  intro x y hxy hred
  exact seedCmp_red_block_1 y x hxy hred

theorem descRun_redFirst (a : Seed) (l : List Seed) :
    ((a :: (descRunT seedCmp a l).1).reverse).Pairwise redFirst := by
  rw [List.pairwise_reverse]
  haveI : IsTrans Seed (fun x y : Seed => redFirst y x) :=
    ⟨fun _ _ _ hab hbc h => hbc (hab h)⟩
  refine List.chain'_iff_pairwise.mp ?_
  show List.Chain (fun x y : Seed => redFirst y x) a (descRunT seedCmp a l).1
  refine List.Chain.imp ?_ (descRunT_chain seedCmp a l)
  intro x y hxy hxr
  by_contra hyr
  have h2 := seedCmp_nonred_lt y x hxy hyr
  rw [h2] at hxr
  exact hyr hxr

theorem v8Sort_redFirst (l : List Seed) :
    (v8Sort seedCmp l).Pairwise redFirst := by
  match l with
  | [] => exact List.Pairwise.nil
  | [a] => exact List.pairwise_singleton _ _
  | a :: b :: rest =>
    by_cases hc : seedCmp b a < 0
    · rw [v8Sort, if_pos hc]
      exact foldl_binInsert_redFirst _ _ (descRun_redFirst a (b :: rest))
    · rw [v8Sort, if_neg hc]
      exact foldl_binInsert_redFirst _ _ (ascRun_redFirst a (b :: rest))

theorem insertAsc_perm {α : Type} (key : α → Int) (x : α) (l : List α) :
    (insertAsc key x l).Perm (x :: l) := by
  induction l with
  | nil => exact List.Perm.refl _
  | cons y ys ih =>
    by_cases hc : key x < key y
    · simp only [insertAsc, if_pos hc]
      exact List.Perm.refl _
    · simp only [insertAsc, if_neg hc]
      exact (ih.cons y).trans (List.Perm.swap x y ys)

theorem sortAsc_perm {α : Type} (key : α → Int) (l : List α) :
    (sortAsc key l).Perm l := by
  suffices haux : ∀ (l acc : List α),
      (l.foldl (fun acc x => insertAsc key x acc) acc).Perm (acc ++ l) by
    simpa [sortAsc] using haux l []
  intro l
  induction l with
  | nil => simp
  | cons x xs ih =>
    intro acc
    have h1 := ih (insertAsc key x acc)
    have h2 : (insertAsc key x acc ++ xs).Perm (x :: (acc ++ xs)) :=
      (insertAsc_perm key x acc).append_right xs
    exact (h1.trans h2).trans List.perm_middle.symm

theorem insertAsc_sorted {α : Type} (key : α → Int) (x : α) (l : List α)
    (h : l.Pairwise (fun a b => key a ≤ key b)) :
    (insertAsc key x l).Pairwise (fun a b => key a ≤ key b) := by
  induction l with
  | nil => simp [insertAsc]
  | cons y ys ih =>
    rcases List.pairwise_cons.mp h with ⟨hy, hys⟩
    by_cases hc : key x < key y
    · simp only [insertAsc, if_pos hc]
      refine List.pairwise_cons.mpr ⟨?_, h⟩
      intro z hz
      rcases List.mem_cons.mp hz with hz | hz
      · subst hz; omega
      · have := hy z hz; omega
    · simp only [insertAsc, if_neg hc]
      refine List.pairwise_cons.mpr ⟨?_, ih hys⟩
      intro z hz
      rcases List.mem_cons.mp ((insertAsc_perm key x ys).mem_iff.mp hz) with hz | hz
      · subst hz; omega
      · exact hy z hz

theorem sortAsc_sorted {α : Type} (key : α → Int) (l : List α) :
    (sortAsc key l).Pairwise (fun a b => key a ≤ key b) := by
  suffices haux : ∀ (l acc : List α), acc.Pairwise (fun a b => key a ≤ key b) →
      (l.foldl (fun acc x => insertAsc key x acc) acc).Pairwise (fun a b => key a ≤ key b) by
    exact haux l [] List.Pairwise.nil
  intro l
  induction l with
  | nil => intro acc hacc; exact hacc
  | cons x xs ih =>
    intro acc hacc
    exact ih (insertAsc key x acc) (insertAsc_sorted key x acc hacc)

/-- Claim C7 (amended): both getActive branches return exactly the planted
seeds.  The DB branch orders them by expiresAt ascending only.  In the
in-memory branch the comparator is inconsistent (1 for both orders of a
yellow/green pair, expiry never consulted), so ECMA-262 leaves the order
implementation-defined; under V8's sort every red seed still precedes
every non-red seed (`redFirst`), but no expiry ordering survives, not even
between seeds of the same zone — see the counterexample. -/
theorem getActive_spec :
    (∀ seeds : List Seed, (getActive_mem seeds).Perm
        (seeds.filter (fun s => s.status == SeedStatus.planted)))
    ∧ (∀ seeds : List Seed, (getActive_db seeds).Perm
        (seeds.filter (fun s => s.status == SeedStatus.planted)))
    ∧ (∀ seeds : List Seed,
        (getActive_db seeds).Pairwise (fun a b => a.expiresAt ≤ b.expiresAt))
    ∧ (∀ seeds : List Seed, (getActive_mem seeds).Pairwise redFirst) := by
  refine ⟨fun seeds => v8Sort_perm _ _, fun seeds => sortAsc_perm _ _, ?_, ?_⟩
  · intro seeds
    exact sortAsc_sorted (fun s : Seed => s.expiresAt) _
  · intro seeds
    exact v8Sort_redFirst _

/-- Counterexample to claim C7 as stated: in the DB branch a planted green
seed expiring sooner is returned before a planted red seed (no red-first
rule); in the in-memory branch V8's run detection sees a weakly ascending
run over planted [yellow 200, green 10, yellow 100] (each adjacent
comparison returns 1) and returns the list unchanged, so the two yellow
seeds come back in descending expiry order; and the comparator answers
"after" for both orders of a yellow/green pair, the inconsistency behind
it. -/
theorem getActive_order_cex :
    (getActive_db [({ id := "r", zone := .red, expiresAt := 100 } : Seed),
        ({ id := "g", zone := .green, expiresAt := 50 } : Seed)]).map Seed.id = ["g", "r"]
    ∧ (getActive_mem [({ id := "y1", zone := .yellow, expiresAt := 200 } : Seed),
        ({ id := "g", zone := .green, expiresAt := 10 } : Seed),
        ({ id := "y2", zone := .yellow, expiresAt := 100 } : Seed)]).map Seed.id
      = ["y1", "g", "y2"]
    ∧ seedCmp { id := "y", zone := .yellow, expiresAt := 100 }
        { id := "g", zone := .green, expiresAt := 50 } = 1
    ∧ seedCmp { id := "g", zone := .green, expiresAt := 50 }
        { id := "y", zone := .yellow, expiresAt := 100 } = 1 := by
  decide

theorem mergeSort_le_sorted (l : List Int) :
    (l.mergeSort (fun a b => decide (a ≤ b))).Pairwise (fun a b : Int => a ≤ b) := by
  have h := @List.sorted_mergeSort Int (fun a b => decide (a ≤ b))
    (by intro a b c hab hbc; simp only [decide_eq_true_eq] at *; omega)
    (by intro a b; rcases Int.le_total a b with h | h <;> simp [h]) l
  exact h.imp (by intro a b hab; simpa using hab)

theorem mergeSort_head_min (l : List Int) (lo : Int) (hmem : lo ∈ l)
    (hle : ∀ x ∈ l, lo ≤ x) :
    (l.mergeSort (fun a b => decide (a ≤ b))).head?.getD 0 = lo := by
  have hperm := List.mergeSort_perm l (fun a b => decide (a ≤ b))
  have hsorted := mergeSort_le_sorted l
  cases hs : l.mergeSort (fun a b => decide (a ≤ b)) with
  | nil =>
    rw [hs] at hperm
    rw [hperm.symm.eq_nil] at hmem
    exact absurd hmem (List.not_mem_nil lo)
  | cons a t =>
    rw [hs] at hperm hsorted
    simp only [List.head?_cons, Option.getD_some]
    have ha : a ∈ l := hperm.mem_iff.mp (List.mem_cons_self a t)
    have h1 : lo ≤ a := hle a ha
    rcases List.mem_cons.mp (hperm.mem_iff.mpr hmem) with h | h
    · exact h.symm
    · have h2 : a ≤ lo := (List.pairwise_cons.mp hsorted).1 lo h
      omega

theorem mergeSort_last_max (l : List Int) (hi : Int) (hmem : hi ∈ l)
    (hge : ∀ x ∈ l, x ≤ hi) :
    (l.mergeSort (fun a b => decide (a ≤ b))).getLast?.getD 0 = hi := by
  have hperm := List.mergeSort_perm l (fun a b => decide (a ≤ b))
  have hsorted : (l.mergeSort (fun a b => decide (a ≤ b))).reverse.Pairwise
      (fun a b : Int => b ≤ a) := List.pairwise_reverse.mpr (mergeSort_le_sorted l)
  rw [← List.head?_reverse]
  cases hs : (l.mergeSort (fun a b => decide (a ≤ b))).reverse with
  | nil =>
    have : l.mergeSort (fun a b => decide (a ≤ b)) = [] := by
      simpa using congrArg List.reverse hs
    rw [this] at hperm
    rw [hperm.symm.eq_nil] at hmem
    exact absurd hmem (List.not_mem_nil hi)
  | cons a t =>
    rw [hs] at hsorted
    simp only [List.head?_cons, Option.getD_some]
    have hms : ∀ x : Int, x ∈ l.mergeSort (fun a b => decide (a ≤ b)) ↔ x ∈ a :: t := by
      intro x
      rw [← List.mem_reverse, hs]
    have ha : a ∈ l := hperm.mem_iff.mp ((hms a).mpr (List.mem_cons_self a t))
    have h1 : a ≤ hi := hge a ha
    rcases List.mem_cons.mp ((hms hi).mp (hperm.mem_iff.mpr hmem)) with h | h
    · exact h.symm
    · have h2 : hi ≤ a := (List.pairwise_cons.mp hsorted).1 hi h
      omega

theorem jsRound_close (q : ℚ) : |(jsRound q : ℚ) - q| ≤ 1 / 2 := by
  have h1 : ((jsRound q : Int) : ℚ) ≤ q + 1 / 2 := Int.floor_le (q + 1 / 2)
  have h2 : q + 1 / 2 < (jsRound q : Int) + 1 := Int.lt_floor_add_one (q + 1 / 2)
  rw [abs_le]
  constructor <;> [push_cast at h2; skip] <;> linarith

theorem jsRound_scaled_close (x : ℚ) (k : ℚ) (hk : 0 < k) :
    |(jsRound (x * k) : ℚ) / k - x| ≤ 1 / 2 / k := by
  have h := jsRound_close (x * k)
  rw [abs_le] at h ⊢
  constructor
  · rw [div_sub' _ _ _ (ne_of_gt hk), le_div_iff₀ hk]
    have : -(1 / 2 / k) * k = -(1 / 2) := by field_simp; ring
    rw [this]
    linarith [h.1]
  · rw [div_sub' _ _ _ (ne_of_gt hk), div_le_iff₀ hk]
    have : 1 / 2 / k * k = 1 / 2 := by field_simp; ring
    rw [this]
    linarith [h.2]

/-- Claim C8 (amended): a thread with exactly one message has velocity 0 in
both implementations; for n ≥ 2 messages whose earliest and latest dates
span d > 0 days, insight.ts computes n/d rounded to two decimals (within
1/200 of n/d); insight.js clamps the elapsed days below at 1, so its
velocity is within 1/20 of n/d only under the extra assumption d ≥ 1. -/
theorem velocity_spec :
    (∀ dates : List Int, dates.length = 1 → updateVelocity_ts dates = 0)
    ∧ (∀ firstSeen lastSeen : Int, updateVelocity_js firstSeen lastSeen 1 = 0)
    ∧ (∀ (dates : List Int) (lo hi : Int), lo ∈ dates → hi ∈ dates →
        (∀ x ∈ dates, lo ≤ x) → (∀ x ∈ dates, x ≤ hi) → 2 ≤ dates.length → lo < hi →
        updateVelocity_ts dates =
          (jsRound ((dates.length : ℚ) / (((hi - lo : Int) : ℚ) / 86400000) * 100) : ℚ) / 100
        ∧ |updateVelocity_ts dates -
            (dates.length : ℚ) / (((hi - lo : Int) : ℚ) / 86400000)| ≤ 1 / 200)
    ∧ (∀ (firstSeen lastSeen : Int) (n : Nat), 2 ≤ n →
        1 ≤ ((lastSeen - firstSeen : Int) : ℚ) / 86400000 →
        |updateVelocity_js firstSeen lastSeen n -
          (n : ℚ) / (((lastSeen - firstSeen : Int) : ℚ) / 86400000)| ≤ 1 / 20) := by
  refine ⟨?_, ?_, ?_, ?_⟩
  · intro dates h
    simp [updateVelocity_ts, h]
  · intro firstSeen lastSeen
    simp [updateVelocity_js]
  · intro dates lo hi hlo hhi hle hge hn hlt
    have hspan : (0 : ℚ) < ((hi - lo : Int) : ℚ) / 86400000 := by
      apply div_pos _ (by norm_num)
      exact_mod_cast sub_pos.mpr hlt
    have hform : updateVelocity_ts dates =
        (jsRound ((dates.length : ℚ) / (((hi - lo : Int) : ℚ) / 86400000) * 100) : ℚ) / 100 := by
      simp only [updateVelocity_ts, mergeSort_head_min dates lo hlo hle,
        mergeSort_last_max dates hi hhi hge]
      rw [if_neg (by omega), if_pos hspan]
    refine ⟨hform, ?_⟩
    rw [hform]
    exact le_trans (jsRound_scaled_close
      ((dates.length : ℚ) / (((hi - lo : Int) : ℚ) / 86400000)) 100 (by norm_num))
      (by norm_num)
  · intro firstSeen lastSeen n hn hd
    have hmax : max 1 (((lastSeen - firstSeen : Int) : ℚ) / 86400000) =
        ((lastSeen - firstSeen : Int) : ℚ) / 86400000 := max_eq_right hd
    simp only [updateVelocity_js, hmax]
    rw [if_neg (by omega)]
    exact le_trans (jsRound_scaled_close
      ((n : ℚ) / (((lastSeen - firstSeen : Int) : ℚ) / 86400000)) 10 (by norm_num))
      (by norm_num)

/-- Counterexample to claim C8 as stated: a 2-message thread spanning half a
day.  insight.js clamps the span to one day and reports velocity 2, while
the claimed messages-per-day rate n/d is 4. -/
theorem velocity_js_halfday_cex :
    updateVelocity_js 0 43200000 2 = 2
    ∧ (2 : ℚ) / (((43200000 - 0 : Int) : ℚ) / 86400000) = 4
    ∧ ¬(|updateVelocity_js 0 43200000 2 -
          (2 : ℚ) / (((43200000 - 0 : Int) : ℚ) / 86400000)| ≤ 1 / 10) := by
  have hd : ((43200000 - 0 : Int) : ℚ) / 86400000 = 1 / 2 := by norm_num
  have hmax : max (1 : ℚ) (1 / 2) = 1 := max_eq_left (by norm_num)
  have h1 : updateVelocity_js 0 43200000 2 = 2 := by
    simp only [updateVelocity_js, hd, hmax]
    rw [if_neg (by omega)]
    norm_num [jsRound]
  refine ⟨h1, by norm_num, ?_⟩
  rw [h1, show (2 : ℚ) / (((43200000 - 0 : Int) : ℚ) / 86400000) = 4 by norm_num]
  rw [show |(2 : ℚ) - 4| = 2 by rw [abs_of_nonpos (by norm_num)]; norm_num]
  norm_num

theorem vipScan_types (se dom subj : String) :
    ∀ (rules : List VipRule) (s : Signal), s ∈ (vipScan se dom subj rules).1 →
      s.type = "vip-precision" ∨ s.type = "vip-sender" := by
  intro rules
  induction rules with
  | nil => intro s hs; simp [vipScan] at hs
  | cons r rs ih =>
    intro s hs
    by_cases hdom : jsIncludes dom r.domainContains = true
    · rcases hsub : r.subjectContains with _ | sub
      · simp only [vipScan, hdom, hsub, if_pos, List.mem_singleton] at hs
        subst hs; right; rfl
      · by_cases hmatch : jsIncludes subj (jsToLower sub) = true
        · simp only [vipScan, hdom, hsub, hmatch, if_pos, List.mem_singleton] at hs
          subst hs; left; rfl
        · simp only [vipScan, hdom, hsub, hmatch] at hs
          simp only [Bool.false_eq_true, if_false] at hs
          exact ih s hs
    · simp only [vipScan] at hs
      rw [if_neg hdom] at hs
      exact ih s hs

theorem unforced_dup_iff (vip : List String) (email : Email) (d c : Nat) (s : Signal) :
    (s ∈ unforcedSignals vip email d c ∧ s.type = "duplicate") ↔
      (0 < d ∧ s = { type := "duplicate", count := (d : Int) + 1 }) := by
  constructor
  · rintro ⟨hmem, htype⟩
    simp only [unforcedSignals] at hmem
    rw [List.mem_append] at hmem
    rcases hmem with hmem | h
    swap
    · split at h <;>
        first
          | exact absurd h (List.not_mem_nil s)
          | (rw [List.mem_singleton] at h; subst h; simp at htype)
    rw [List.mem_append] at hmem
    rcases hmem with hmem | h
    swap
    · rw [List.mem_append, List.mem_append] at h
      rcases h with (h | h) | h <;> split at h <;>
        first
          | exact absurd h (List.not_mem_nil s)
          | (rw [List.mem_singleton] at h; subst h; simp at htype)
    rw [List.mem_append] at hmem
    rcases hmem with hmem | h
    swap
    · split at h <;>
        first
          | exact absurd h (List.not_mem_nil s)
          | (rw [List.mem_singleton] at h; subst h; simp at htype)
    rw [List.mem_append] at hmem
    rcases hmem with hmem | h
    swap
    · rw [List.mem_append, List.mem_append] at h
      rcases h with (h | h) | h <;> rw [List.mem_map] at h <;> rcases h with ⟨k, _, hk⟩ <;>
        subst hk <;> simp at htype
    rw [List.mem_append] at hmem
    rcases hmem with hmem | h
    swap
    · split at h <;>
        first
          | exact absurd h (List.not_mem_nil s)
          | (rw [List.mem_singleton] at h; subst h; simp at htype)
    rw [List.mem_append] at hmem
    rcases hmem with hmem | h
    swap
    · by_cases hd0 : d > 0
      · rw [if_pos hd0] at h
        rw [List.mem_singleton] at h
        exact ⟨hd0, h⟩
      · rw [if_neg hd0] at h
        exact absurd h (List.not_mem_nil s)
    rw [List.mem_append] at hmem
    rcases hmem with hmem | h
    swap
    · split at h <;>
        first
          | exact absurd h (List.not_mem_nil s)
          | (rw [List.mem_singleton] at h; subst h; simp at htype)
    rw [List.mem_append] at hmem
    rcases hmem with hmem | h
    swap
    · split at h <;>
        first
          | exact absurd h (List.not_mem_nil s)
          | (rw [List.mem_singleton] at h; subst h; simp at htype)
    rw [List.mem_append] at hmem
    rcases hmem with hmem | h
    swap
    · split at h <;>
        first
          | exact absurd h (List.not_mem_nil s)
          | (rw [List.mem_singleton] at h; subst h; simp at htype)
    rw [List.mem_append] at hmem
    rcases hmem with h | h
    · rcases vipScan_types _ _ _ _ s h with h1 | h1 <;> rw [htype] at h1 <;>
        exact absurd h1 (by decide)
    · split at h <;>
        first
          | exact absurd h (List.not_mem_nil s)
          | (rw [List.mem_singleton] at h; subst h; simp at htype)
          | (split at h <;>
              first
                | exact absurd h (List.not_mem_nil s)
                | (rw [List.mem_singleton] at h; subst h; simp at htype))
  · rintro ⟨hd, rfl⟩
    refine ⟨?_, rfl⟩
    simp only [unforcedSignals, List.mem_append]
    have : ({ type := "duplicate", count := (d : Int) + 1 } : Signal) ∈
        (if d > 0 then [({ type := "duplicate", count := (d : Int) + 1 } : Signal)] else []) := by
      rw [if_pos hd]; exact List.mem_singleton.mpr rfl
    tauto

/-- The score contribution of the duplicate segment of `unforcedSignals` as a
function of the prior duplicate count. -/
def dupContrib (d : Nat) : Int :=
  if d > 0 then -(if (d : Int) + 1 ≥ 3 then 35 else 20) else 0

/-- The score contribution of the frequent-sender segment of
`unforcedSignals` as a function of the prior sender count. -/
def freqContrib (c : Nat) : Int :=
  if c > 5 then min (c : Int) 5 else 0

theorem scoreFold_unforced (vip : List String) (email : Email) (d c : Nat) :
    (scoreFold (unforcedSignals vip email d c)).1 =
      (scoreFold (unforcedSignals vip email 0 0)).1 + dupContrib d + freqContrib c := by
  simp only [scoreFold_eq, unforcedSignals, List.map_append, List.sum_append]
  by_cases hd : d > 0 <;> by_cases hc : c > 5 <;>
    simp [hd, hc, dupContrib, freqContrib, signalContrib] <;> ring

theorem freqContrib_succ_ne5 (c : Nat) (h : c ≠ 5) : freqContrib (c + 1) = freqContrib c := by
  unfold freqContrib
  split_ifs <;> omega

theorem freqContrib_add2_ne45 (c : Nat) (h4 : c ≠ 4) (h5 : c ≠ 5) :
    freqContrib (c + 2) = freqContrib c := by
  unfold freqContrib
  split_ifs <;> omega

theorem detectSignals_forced_none_iff (vip : List String) (st : ClassifyState) (email : Email) :
    (detectSignals vip st email).1.forcedZone = none ↔
      (vipScan email.fromEmail (domainOf email.fromEmail) (jsToLower email.subject)
        VIP_PRECISION_RULES).2 = none := by
  cases h : (vipScan email.fromEmail (domainOf email.fromEmail) (jsToLower email.subject)
      VIP_PRECISION_RULES).2 <;> simp [detectSignals, h]

theorem detectSignals_none (vip : List String) (st : ClassifyState) (email : Email)
    (h : (vipScan email.fromEmail (domainOf email.fromEmail) (jsToLower email.subject)
      VIP_PRECISION_RULES).2 = none) :
    detectSignals vip st email =
      ({ forcedZone := none,
         signals := unforcedSignals vip email (mapGetD st.subjectHistory (dedupKey email))
           (mapGetD st.senderHistory email.fromEmail) },
       { st with subjectHistory := mapSet st.subjectHistory (dedupKey email)
                   (mapGetD st.subjectHistory (dedupKey email) + 1),
                 senderHistory := mapSet st.senderHistory email.fromEmail
                   (mapGetD st.senderHistory email.fromEmail + 1) }) := by
  simp only [detectSignals, h]

/-- The stateful duplicate-detection behaviour of claim C10, for a given
start state: the first call emits no duplicate signal, the second emits one
with count 2 and drops the raw (pre-clamp) keyword score by 20, and a third
call emits count 3 and drops the raw score by 35 relative to the first. -/
def statefulDupBehaviour (vip : List String) (st : ClassifyState) (email : Email) : Prop :=
  (∀ s ∈ (detectSignals vip st email).1.signals, s.type ≠ "duplicate")
  ∧ (∃ s ∈ (detectSignals vip (detectSignals vip st email).2 email).1.signals,
      s.type = "duplicate" ∧ s.count = 2)
  ∧ (scoreFold (detectSignals vip (detectSignals vip st email).2 email).1.signals).1 =
      (scoreFold (detectSignals vip st email).1.signals).1 - 20
  ∧ (mapGetD st.senderHistory email.fromEmail ≠ 4 →
      (∃ s ∈ (detectSignals vip
          (detectSignals vip (detectSignals vip st email).2 email).2 email).1.signals,
        s.type = "duplicate" ∧ s.count = 3)
      ∧ (scoreFold (detectSignals vip
          (detectSignals vip (detectSignals vip st email).2 email).2 email).1.signals).1 =
          (scoreFold (detectSignals vip st email).1.signals).1 - 35)

/-- Claim C10 (amended): signal detection is stateful.  Starting from a
detector state whose subjectHistory lacks the email's dedup key, provided no
VIP precision rule forces a zone for the email and the sender's prior
senderHistory count is not exactly 5 (crossing the frequent-sender threshold
between runs would add +5), the first detectSignals call emits no duplicate
signal, the second emits one with count 2 and a raw keyword score 20 lower,
and (when the prior count is also not 4) the third emits count 3 with a raw
score 35 lower than the first. -/
theorem detectSignals_stateful_dup (vip : List String) (st : ClassifyState) (email : Email)
    (hkey : mapGetD st.subjectHistory (dedupKey email) = 0)
    (hforced : (detectSignals vip st email).1.forcedZone = none)
    (hs5 : mapGetD st.senderHistory email.fromEmail ≠ 5) :
    statefulDupBehaviour vip st email := by
  have hscan := (detectSignals_forced_none_iff vip st email).mp hforced
  have h1 := detectSignals_none vip st email hscan
  rw [hkey] at h1
  have hkey2 : mapGetD (mapSet st.subjectHistory (dedupKey email) (0 + 1)) (dedupKey email) = 1 := by
    simp [mapGetD, mapSet, List.lookup]
  have hsend2 : mapGetD (mapSet st.senderHistory email.fromEmail
      (mapGetD st.senderHistory email.fromEmail + 1)) email.fromEmail =
      mapGetD st.senderHistory email.fromEmail + 1 := by
    simp [mapGetD, mapSet, List.lookup]
  have h2 := detectSignals_none vip
    ({ st with subjectHistory := mapSet st.subjectHistory (dedupKey email) (0 + 1),
               senderHistory := mapSet st.senderHistory email.fromEmail
                 (mapGetD st.senderHistory email.fromEmail + 1) }) email hscan
  simp only [hkey2, hsend2] at h2
  have hkey3 : mapGetD (mapSet (mapSet st.subjectHistory (dedupKey email) (0 + 1))
      (dedupKey email) (1 + 1)) (dedupKey email) = 2 := by
    simp [mapGetD, mapSet, List.lookup]
  have hsend3 : mapGetD (mapSet (mapSet st.senderHistory email.fromEmail
      (mapGetD st.senderHistory email.fromEmail + 1)) email.fromEmail
      (mapGetD st.senderHistory email.fromEmail + 1 + 1)) email.fromEmail =
      mapGetD st.senderHistory email.fromEmail + 1 + 1 := by
    simp [mapGetD, mapSet, List.lookup]
  have h3 := detectSignals_none vip
    ({ st with subjectHistory := mapSet (mapSet st.subjectHistory (dedupKey email) (0 + 1))
                 (dedupKey email) (1 + 1),
               senderHistory := mapSet (mapSet st.senderHistory email.fromEmail
                 (mapGetD st.senderHistory email.fromEmail + 1)) email.fromEmail
                 (mapGetD st.senderHistory email.fromEmail + 1 + 1) }) email hscan
  simp only [hkey3, hsend3] at h3
  rw [statefulDupBehaviour, h1, h2]
  refine ⟨?_, ?_, ?_, ?_⟩
  · intro s hs ht
    have := ((unforced_dup_iff vip email 0 (mapGetD st.senderHistory email.fromEmail) s).mp
      ⟨hs, ht⟩).1
    omega
  · refine ⟨{ type := "duplicate", count := (1 : Int) + 1 }, ?_, rfl, by norm_num⟩
    exact ((unforced_dup_iff vip email 1 _ _).mpr ⟨one_pos, rfl⟩).1
  · rw [scoreFold_unforced vip email 1 (mapGetD st.senderHistory email.fromEmail + 1),
      scoreFold_unforced vip email 0 (mapGetD st.senderHistory email.fromEmail),
      freqContrib_succ_ne5 _ hs5]
    norm_num [dupContrib]
    omega
  · intro h4
    rw [h3]
    constructor
    · refine ⟨{ type := "duplicate", count := (2 : Int) + 1 }, ?_, rfl, by norm_num⟩
      exact ((unforced_dup_iff vip email 2 _ _).mpr ⟨by omega, rfl⟩).1
    · rw [scoreFold_unforced vip email 2 (mapGetD st.senderHistory email.fromEmail + 1 + 1),
        scoreFold_unforced vip email 0 (mapGetD st.senderHistory email.fromEmail)]
      have hadd : mapGetD st.senderHistory email.fromEmail + 1 + 1 =
          mapGetD st.senderHistory email.fromEmail + 2 := by omega
      rw [hadd, freqContrib_add2_ne45 _ h4 hs5]
      norm_num [dupContrib]
      omega

/-- A concrete email whose sender domain and subject match the
tcb-bank/待放行 VIP precision rule (forced zone green). -/
def vipCexEmail : Email :=
  { id := "f", fromEmail := "ops" ++ "\x40" ++ "tcb-bank.com.tw", subject := "轉帳待放行" }

/-- A concrete signal-free email from an anonymous sender. -/
def plainCexEmail : Email :=
  { id := "p", subject := "hello" }

/-- A detector state whose sender counter for `plainCexEmail`'s sender
already stands at 5 (the frequent-sender threshold boundary). -/
def senderFiveState : ClassifyState :=
  { senderHistory := [("", 5)] }

/-- Counterexample to claim C10 as stated: for an email matching a VIP
precision rule with a subject filter, the second call emits no duplicate
signal at all (detection stops before duplicate tracking); and from a state
whose senderHistory count for the sender is exactly 5, the second run's raw
score is 15 lower, not 20, because the frequent-sender signal appears. -/
theorem detectSignals_stateful_cex :
    (mapGetD ({} : ClassifyState).subjectHistory (dedupKey vipCexEmail) = 0)
    ∧ ((detectSignals [] (detectSignals [] {} vipCexEmail).2 vipCexEmail).1.signals.all
        (fun s => !(s.type == "duplicate")) = true)
    ∧ (mapGetD senderFiveState.subjectHistory (dedupKey plainCexEmail) = 0)
    ∧ ((scoreFold (detectSignals []
          (detectSignals [] senderFiveState plainCexEmail).2 plainCexEmail).1.signals).1 =
        (scoreFold (detectSignals [] senderFiveState plainCexEmail).1.signals).1 - 15) := by
  decide

/-- Witness for claim C10 at a concrete input: the empty detector state and
a plain signal-free email. -/
theorem detectSignals_stateful_dup_witness :
    statefulDupBehaviour [] {} plainCexEmail :=
  detectSignals_stateful_dup [] {} plainCexEmail (by decide) (by decide) (by decide)
